import Mathlib

/-!
Shallow embedding of the per-room game state machine of the
`i-call-on-game` worker (`apps/worker/src/room.ts`, with the room-creation
validation of `apps/worker/src/index.ts`), together with theorems about
the scoring engine, fair-round ceiling, publication finality, round
lifecycle, snapshot projection and reachable-state invariants.

Modelling conventions:
- timestamps (ISO-8601 strings in the source, always compared through
  `Date.getTime()` or lexicographically, which agree) are millisecond
  epochs, `Time := Int`;
- JS `number` values are `Int` (indices that are provably natural are
  `Nat`); scores, which are rounded to two decimals with
  `Math.round(x*100)/100`, are `ℚ` with `Math.round x = ⌊x + 1/2⌋`;
- `crypto.randomUUID()` (an external id source, per the spec) becomes an
  explicit parameter of the transitions that call it;
- `Array.prototype.sort`, stable in the engines targeted by the source,
  is modelled by a stable insertion sort `sortByLe`; `localeCompare` is
  modelled as code-point order;
- fallible transitions return `MutationResult`, mirroring the tagged
  `Ok | Err(status, error)` results of the source.
-/

namespace ICallOn

/-! ## String normalisation (`normalizeName`, `normalizeTextAnswer`) -/

/-- `String.prototype.trim` on the character list: drop leading and
trailing whitespace. -/
def trimChars (l : List Char) : List Char :=
  ((l.dropWhile Char.isWhitespace).reverse.dropWhile Char.isWhitespace).reverse

/-- Worker for `replace(/\s+/g, " ")`: the flag records whether the
previous character was part of a whitespace run already emitted as a
single space. -/
def collapseWsAux : Bool → List Char → List Char
  | _, [] => []
  | prevWs, c :: rest =>
    if c.isWhitespace then
      if prevWs then collapseWsAux true rest
      else ' ' :: collapseWsAux true rest
    else c :: collapseWsAux false rest

/-- `replace(/\s+/g, " ")`: collapse every whitespace run to one space. -/
def collapseWs (l : List Char) : List Char := collapseWsAux false l

/-- `rawName.trim()`. -/
def trimString (s : String) : String := ⟨trimChars s.data⟩

/-- `rawName.trim().replace(/\s+/g, " ")` (room.ts `normalizeName`). -/
def normalizeName (s : String) : String := ⟨collapseWs (trimChars s.data)⟩

/-- `raw.trim().replace(/\s+/g, " ").slice(0, 48)` (room.ts
`normalizeTextAnswer`); the non-string branch of the source cannot arise
for typed inputs. -/
def normalizeTextAnswer (s : String) : String :=
  ⟨(collapseWs (trimChars s.data)).take 48⟩

/-- `String.prototype.toLowerCase` (code-point wise). -/
def toLowerString (s : String) : String := ⟨s.data.map Char.toLower⟩

/-! ## `localeCompare` and stable sorting -/

/-- Code-point comparison of character lists: `charListLe a b` is true
iff `a` is lexicographically at most `b`. -/
def charListLe : List Char → List Char → Bool
  | [], _ => true
  | _ :: _, [] => false
  | a :: as, b :: bs =>
    if a.toNat < b.toNat then true
    else if b.toNat < a.toNat then false
    else charListLe as bs

/-- `a.localeCompare(b) ≤ 0`, modelled as code-point order. -/
def strLe (a b : String) : Bool := charListLe a.data b.data

/-- Insert `x` after every element `y` of `l` with `le y x`; the
insertion step of a stable insertion sort. -/
def insertLe (le : α → α → Bool) (x : α) : List α → List α
  | [] => [x]
  | y :: ys => if le y x then y :: insertLe le x ys else x :: y :: ys

/-- Stable sort by the boolean preorder `le`; models
`Array.prototype.sort` with the comparator `cmp l r ≤ 0 ↔ le l r`. -/
def sortByLe (le : α → α → Bool) (l : List α) : List α :=
  l.foldl (fun acc x => insertLe le x acc) []

/-! ## Rounding (`Math.round(value * 100) / 100`) -/

/-- `Math.round`: round half towards positive infinity. -/
def jsRound (q : ℚ) : ℤ := ⌊q + 1 / 2⌋

/-- room.ts `roundScoreValue`. -/
def roundScoreValue (value : ℚ) : ℚ := (jsRound (value * 100) : ℚ) / 100

/-! ## Data model -/

abbrev Time := Int

inductive ParticipantStatus where
  | PENDING | ADMITTED | REJECTED
deriving DecidableEq

inductive GameStatus where
  | LOBBY | IN_PROGRESS | CANCELLED | FINISHED
deriving DecidableEq

inductive RoundEndRule where
  | TIMER | FIRST_SUBMISSION | WHICHEVER_FIRST
deriving DecidableEq

inductive RoundEndReason where
  | TIMER | FIRST_SUBMISSION | MANUAL_END
deriving DecidableEq

inductive ManualEndPolicy where
  | HOST_OR_CALLER | CALLER_ONLY | CALLER_OR_TIMER | NONE
deriving DecidableEq

inductive ScoringMode where
  | FIXED_10 | SHARED_10
deriving DecidableEq

structure RoomMeta where
  roomCode : String
  hostName : String
  maxParticipants : Int
deriving DecidableEq

structure RoomInitPayload extends RoomMeta where
  hostToken : String
deriving DecidableEq

structure Participant where
  id : String
  name : String
  status : ParticipantStatus
  isHost : Bool
  createdAt : Time
  updatedAt : Time
deriving DecidableEq

structure RoundAnswers where
  name : String
  animal : String
  place : String
  thing : String
  food : String
deriving DecidableEq

structure RoundMarks where
  name : Bool
  animal : Bool
  place : Bool
  thing : Bool
  food : Bool
deriving DecidableEq

structure RoundFieldScores where
  name : ℚ
  animal : ℚ
  place : ℚ
  thing : ℚ
  food : ℚ
  total : ℚ
deriving DecidableEq

structure SubmissionReview where
  marks : RoundMarks
  scores : RoundFieldScores
  markedByParticipantId : String
  markedByParticipantName : String
  markedAt : Time
deriving DecidableEq

structure RoundSubmission where
  participantId : String
  participantName : String
  answers : RoundAnswers
  submittedAt : Time
  review : Option SubmissionReview
deriving DecidableEq

structure ActiveRoundState where
  roundNumber : Nat
  turnParticipantId : String
  turnParticipantName : String
  calledNumber : Int
  activeLetter : String
  startedAt : Time
  countdownEndsAt : Time
  endsAt : Option Time
  submissions : List RoundSubmission
  drafts : List (String × RoundAnswers)
deriving DecidableEq

structure CompletedRoundState extends ActiveRoundState where
  endedAt : Time
  endReason : RoundEndReason
  scorePublishedAt : Option Time
deriving DecidableEq

structure GameConfig where
  roundSeconds : Int
  endRule : RoundEndRule
  manualEndPolicy : ManualEndPolicy
  scoringMode : ScoringMode
deriving DecidableEq

structure GameState where
  status : GameStatus
  startedAt : Option Time
  cancelledAt : Option Time
  finishedAt : Option Time
  config : GameConfig
  turnOrder : List String
  currentTurnIndex : Nat
  activeRound : Option ActiveRoundState
  completedRounds : List CompletedRoundState
deriving DecidableEq

structure StoredRoomState where
  meta : RoomMeta
  hostToken : String
  participants : List Participant
  game : GameState
deriving DecidableEq

/-! ## Snapshot types -/

structure ActiveRoundSubmissionView where
  participantId : String
  participantName : String
  submittedAt : Time
deriving DecidableEq

structure ActiveRoundSnapshot where
  roundNumber : Nat
  turnParticipantId : String
  turnParticipantName : String
  calledNumber : Int
  activeLetter : String
  startedAt : Time
  countdownEndsAt : Time
  endsAt : Option Time
  submissions : List ActiveRoundSubmissionView
deriving DecidableEq

structure CompletedRoundSnapshot where
  roundNumber : Nat
  turnParticipantId : String
  turnParticipantName : String
  calledNumber : Int
  activeLetter : String
  startedAt : Time
  countdownEndsAt : Time
  endsAt : Option Time
  endedAt : Time
  endReason : RoundEndReason
  scorePublishedAt : Option Time
  submissionsCount : Nat
  submissions : List RoundSubmission
deriving DecidableEq

structure ParticipantHistoryEntry where
  roundNumber : Nat
  calledNumber : Int
  activeLetter : String
  score : ℚ
  cumulativeScore : ℚ
  reviewed : Bool
deriving DecidableEq

structure ParticipantScoreSummary where
  participantId : String
  participantName : String
  totalScore : ℚ
  reviewedRounds : Nat
  history : List ParticipantHistoryEntry
deriving DecidableEq

structure ScoringSummary where
  roundsPerPlayer : Nat
  maxRounds : Nat
  roundsPlayed : Nat
  publishedRounds : Nat
  pendingPublicationRounds : List Nat
  usedNumbers : List Int
  availableNumbers : List Int
  isComplete : Bool
  leaderboard : List ParticipantScoreSummary
deriving DecidableEq

structure SnapshotCounts where
  admitted : Nat
  pending : Nat
  rejected : Nat
deriving DecidableEq

structure GameSnapshot where
  status : GameStatus
  startedAt : Option Time
  cancelledAt : Option Time
  finishedAt : Option Time
  config : GameConfig
  turnOrder : List String
  currentTurnIndex : Nat
  currentTurnParticipantId : Option String
  activeRound : Option ActiveRoundSnapshot
  completedRounds : List CompletedRoundSnapshot
  scoring : ScoringSummary
deriving DecidableEq

structure RoomSnapshot where
  meta : RoomMeta
  participants : List Participant
  counts : SnapshotCounts
  game : GameSnapshot
deriving DecidableEq

/-! ## Result type -/

/-- Tagged result of a transition: `Ok(payload)` or `Err(status, error)`.
A failure carries no state, so a failing transition leaves the stored
state untouched by construction. -/
inductive MutationResult (α : Type) where
  | ok (value : α)
  | err (status : Nat) (error : String)
deriving DecidableEq

def MutationResult.isOk : MutationResult α → Bool
  | .ok _ => true
  | .err _ _ => false

def MutationResult.isErr : MutationResult α → Bool
  | .ok _ => false
  | .err _ _ => true

def MutationResult.errStatus? : MutationResult α → Option Nat
  | .ok _ => none
  | .err status _ => some status

def MutationResult.errMsg? : MutationResult α → Option String
  | .ok _ => none
  | .err _ msg => some msg

structure JoinOk where
  nextState : StoredRoomState
  participant : Participant
deriving DecidableEq

structure AdmitOk where
  nextState : StoredRoomState
  participant : Participant
deriving DecidableEq

structure StartOk where
  nextState : StoredRoomState
deriving DecidableEq

structure CallOk where
  nextState : StoredRoomState
  activeRound : ActiveRoundState
deriving DecidableEq

structure SubmitOk where
  nextState : StoredRoomState
  submission : RoundSubmission
  roundEnded : Bool
  completedRound : Option CompletedRoundState
deriving DecidableEq

structure EndRoundOk where
  nextState : StoredRoomState
  completedRound : CompletedRoundState
deriving DecidableEq

structure ScoreOk where
  nextState : StoredRoomState
  updatedSubmission : RoundSubmission
deriving DecidableEq

structure PublishOk where
  nextState : StoredRoomState
  round : CompletedRoundState
deriving DecidableEq

structure DiscardOk where
  nextState : StoredRoomState
  round : CompletedRoundState
deriving DecidableEq

structure StateOnlyOk where
  nextState : StoredRoomState
deriving DecidableEq

abbrev JoinMutationResult := MutationResult JoinOk
abbrev AdmitMutationResult := MutationResult AdmitOk
abbrev StartMutationResult := MutationResult StartOk
abbrev CallNumberResult := MutationResult CallOk
abbrev SubmitResult := MutationResult SubmitOk
abbrev EndRoundResult := MutationResult EndRoundOk
abbrev ScoreSubmissionResult := MutationResult ScoreOk
abbrev PublishRoundScoresResult := MutationResult PublishOk
abbrev DiscardRoundScoresResult := MutationResult DiscardOk
abbrev CancelGameResult := MutationResult StateOnlyOk
abbrev DraftUpdateResult := MutationResult StateOnlyOk
abbrev EndGameResult := MutationResult StateOnlyOk

/-! ## Constants (room.ts) -/

def MIN_NAME_LENGTH : Nat := 2
def MAX_NAME_LENGTH : Nat := 24
def DEFAULT_ROUND_SECONDS : Int := 20
def MIN_ROUND_SECONDS : Int := 5
def MAX_ROUND_SECONDS : Int := 120
def DEFAULT_MANUAL_END_POLICY : ManualEndPolicy := .HOST_OR_CALLER
def DEFAULT_SCORING_MODE : ScoringMode := .FIXED_10
def MAX_COMPLETED_ROUNDS : Nat := 26
def ROUND_COUNTDOWN_SECONDS : Int := 3
def SCORE_PER_CORRECT_FIELD : ℚ := 10

/-- The five answer fields of `ROUND_FIELDS`. -/
inductive RoundField where
  | name | animal | place | thing | food
deriving DecidableEq

def RoundAnswers.get (a : RoundAnswers) : RoundField → String
  | .name => a.name
  | .animal => a.animal
  | .place => a.place
  | .thing => a.thing
  | .food => a.food

def RoundMarks.get (m : RoundMarks) : RoundField → Bool
  | .name => m.name
  | .animal => m.animal
  | .place => m.place
  | .thing => m.thing
  | .food => m.food

def RoundFieldScores.get (s : RoundFieldScores) : RoundField → ℚ
  | .name => s.name
  | .animal => s.animal
  | .place => s.place
  | .thing => s.thing
  | .food => s.food

def emptyAnswers : RoundAnswers :=
  { name := "", animal := "", place := "", thing := "", food := "" }

/-! ## Record-object (drafts) helpers -/

/-- `drafts[pid]`, on the association-list model of the record. -/
def lookupDraft (drafts : List (String × RoundAnswers)) (pid : String) :
    Option RoundAnswers :=
  (drafts.find? (fun entry => entry.1 == pid)).map (·.2)

/-- `{ ...drafts, [pid]: answers }`. -/
def setDraft (drafts : List (String × RoundAnswers)) (pid : String)
    (answers : RoundAnswers) : List (String × RoundAnswers) :=
  if (drafts.find? (fun entry => entry.1 == pid)).isSome then
    drafts.map (fun entry => if entry.1 == pid then (pid, answers) else entry)
  else
    drafts ++ [(pid, answers)]

/-- `delete drafts[pid]`. -/
def removeDraft (drafts : List (String × RoundAnswers)) (pid : String) :
    List (String × RoundAnswers) :=
  drafts.filter (fun entry => entry.1 != pid)

/-! ## Participant helpers -/

def countStatuses (participants : List Participant) : SnapshotCounts :=
  { admitted := participants.countP (fun p => p.status == .ADMITTED)
    pending := participants.countP (fun p => p.status == .PENDING)
    rejected :=
      participants.countP
        (fun p => !(p.status == .ADMITTED) && !(p.status == .PENDING)) }

def participantNameExists (participants : List Participant)
    (rawName : String) : Bool :=
  let normalized := toLowerString (normalizeName rawName)
  participants.any (fun p => toLowerString p.name == normalized)

/-- Comparator of `sortParticipantsByJoinOrder`: by `createdAt`, ties by
`id` (`localeCompare`, modelled as order on the embedded values). -/
def joinOrderLe (left right : Participant) : Bool :=
  if left.createdAt = right.createdAt then strLe left.id right.id
  else decide (left.createdAt < right.createdAt)

def sortParticipantsByJoinOrder (participants : List Participant) :
    List Participant :=
  sortByLe joinOrderLe participants

def admittedParticipants (state : StoredRoomState) : List Participant :=
  sortParticipantsByJoinOrder
    (state.participants.filter (fun p => p.status == .ADMITTED))

def hostParticipant (state : StoredRoomState) : Option Participant :=
  state.participants.find? (·.isHost)

def isGameCancelled (state : StoredRoomState) : Bool :=
  state.game.status == .CANCELLED

def isGameFinished (state : StoredRoomState) : Bool :=
  state.game.status == .FINISHED

def participantById (state : StoredRoomState) (participantId : String) :
    Option Participant :=
  state.participants.find? (fun p => p.id == participantId)

def isParticipantAdmitted (state : StoredRoomState)
    (participantId : String) : Bool :=
  match participantById state participantId with
  | some p => p.status == .ADMITTED
  | none => false

/-- `String.fromCharCode(64 + number)`. -/
def numberToLetter (number : Int) : String :=
  ⟨[Char.ofNat (64 + number).toNat]⟩

def currentTurnParticipantId (state : StoredRoomState) : Option String :=
  if state.game.turnOrder.length = 0 then none
  else
    state.game.turnOrder.get?
      (state.game.currentTurnIndex % state.game.turnOrder.length)

def isRoundCountdownOver (round : ActiveRoundState) (nowIso : Time) : Bool :=
  decide (round.countdownEndsAt ≤ nowIso)

def roundScoreFromReview (review : Option SubmissionReview) : ℚ :=
  match review with
  | some r => r.scores.total
  | none => 0

def submissionForParticipant (round : CompletedRoundState)
    (participantId : String) : Option RoundSubmission :=
  round.submissions.find? (fun s => s.participantId == participantId)

def roundIsFullyReviewed (round : CompletedRoundState) : Bool :=
  round.submissions.all (fun s => s.review.isSome)

def usedNumbers (state : StoredRoomState) : List Int :=
  let base :=
    state.game.completedRounds.map (·.calledNumber) ++
      (match state.game.activeRound with
       | some round => [round.calledNumber]
       | none => [])
  sortByLe (fun a b => decide (a ≤ b)) base.dedup

structure ScoringLimitsInfo where
  admittedCount : Nat
  roundsPerPlayer : Nat
  maxRounds : Nat
deriving DecidableEq

def scoringLimits (state : StoredRoomState) : ScoringLimitsInfo :=
  let admittedCount := (admittedParticipants state).length
  let roundsPerPlayer := if admittedCount > 0 then 26 / admittedCount else 0
  { admittedCount
    roundsPerPlayer
    maxRounds := roundsPerPlayer * admittedCount }

/-! ## Scoring engine -/

def answerKeyForField (submission : RoundSubmission) (field : RoundField) :
    String :=
  toLowerString (normalizeTextAnswer (submission.answers.get field))

def fieldScoreForSubmission (submissions : List RoundSubmission)
    (submission : RoundSubmission) (field : RoundField)
    (scoringMode : ScoringMode) : ℚ :=
  match submission.review with
  | none => 0
  | some review =>
    if !review.marks.get field then 0
    else if scoringMode = .FIXED_10 then SCORE_PER_CORRECT_FIELD
    else
      let key := answerKeyForField submission field
      if key = "" then 0
      else
        let matchingCorrectCount :=
          submissions.countP (fun current =>
            (match current.review with
             | some r => r.marks.get field
             | none => false) &&
              answerKeyForField current field == key)
        if matchingCorrectCount < 1 then 0
        else roundScoreValue (SCORE_PER_CORRECT_FIELD / matchingCorrectCount)

def buildFieldScoresForSubmission (submissions : List RoundSubmission)
    (submission : RoundSubmission) (scoringMode : ScoringMode) :
    RoundFieldScores :=
  let n := fieldScoreForSubmission submissions submission .name scoringMode
  let a := fieldScoreForSubmission submissions submission .animal scoringMode
  let p := fieldScoreForSubmission submissions submission .place scoringMode
  let t := fieldScoreForSubmission submissions submission .thing scoringMode
  let f := fieldScoreForSubmission submissions submission .food scoringMode
  { name := n, animal := a, place := p, thing := t, food := f
    total := roundScoreValue (n + a + p + t + f) }

def recomputeRoundReviewScores (round : CompletedRoundState)
    (scoringMode : ScoringMode) : CompletedRoundState :=
  { round with
    submissions :=
      round.submissions.map (fun submission =>
        match submission.review with
        | none => submission
        | some review =>
          { submission with
            review := some
              { review with
                scores :=
                  buildFieldScoresForSubmission round.submissions submission
                    scoringMode } }) }

/-! ## Scoring summary and snapshot projector -/

/-- The history loop of `buildScoringSummary`: walks the published
rounds threading `runningTotal` and `reviewedRounds`; returns the
history entries, the final running total, and the reviewed count. -/
def leaderboardHistory (pid : String) :
    List CompletedRoundState → ℚ → Nat →
      List ParticipantHistoryEntry × ℚ × Nat
  | [], runningTotal, reviewedRounds => ([], runningTotal, reviewedRounds)
  | round :: rest, runningTotal, reviewedRounds =>
    let submission := submissionForParticipant round pid
    let score : ℚ :=
      match submission with
      | some s => roundScoreFromReview s.review
      | none => 0
    let reviewed : Bool :=
      match submission with
      | some s => s.review.isSome
      | none => false
    let newTotal := runningTotal + score
    let newReviewed := if reviewed then reviewedRounds + 1 else reviewedRounds
    let tail := leaderboardHistory pid rest newTotal newReviewed
    ({ roundNumber := round.roundNumber
       calledNumber := round.calledNumber
       activeLetter := round.activeLetter
       score
       cumulativeScore := newTotal
       reviewed } :: tail.1,
     tail.2)

def participantSummary (publishedRounds : List CompletedRoundState)
    (participant : Participant) : ParticipantScoreSummary :=
  let result := leaderboardHistory participant.id publishedRounds 0 0
  { participantId := participant.id
    participantName := participant.name
    totalScore := result.2.1
    reviewedRounds := result.2.2
    history := result.1 }

/-- Comparator of the leaderboard sort: `totalScore` descending, ties by
`participantName` ascending. -/
def leaderboardLe (left right : ParticipantScoreSummary) : Bool :=
  if left.totalScore = right.totalScore then
    strLe left.participantName right.participantName
  else decide (right.totalScore < left.totalScore)

def buildScoringSummary (state : StoredRoomState) : ScoringSummary :=
  let limits := scoringLimits state
  let used := usedNumbers state
  let availableNumbers :=
    ((List.range 26).map (fun index => (index : Int) + 1)).filter
      (fun number => !used.contains number)
  let publishedRounds :=
    state.game.completedRounds.filter (fun round => round.scorePublishedAt.isSome)
  let pendingPublicationRounds :=
    sortByLe (fun a b => decide (a ≤ b))
      ((state.game.completedRounds.filter
          (fun round => !round.scorePublishedAt.isSome)).map (·.roundNumber))
  let leaderboard :=
    sortByLe leaderboardLe
      ((admittedParticipants state).map (participantSummary publishedRounds))
  let roundsPlayed := state.game.completedRounds.length
  { roundsPerPlayer := limits.roundsPerPlayer
    maxRounds := limits.maxRounds
    roundsPlayed
    publishedRounds := publishedRounds.length
    pendingPublicationRounds
    usedNumbers := used
    availableNumbers
    isComplete := decide (limits.maxRounds > 0 ∧ roundsPlayed ≥ limits.maxRounds)
    leaderboard }

def toActiveRoundSnapshot (round : ActiveRoundState) : ActiveRoundSnapshot :=
  { roundNumber := round.roundNumber
    turnParticipantId := round.turnParticipantId
    turnParticipantName := round.turnParticipantName
    calledNumber := round.calledNumber
    activeLetter := round.activeLetter
    startedAt := round.startedAt
    countdownEndsAt := round.countdownEndsAt
    endsAt := round.endsAt
    submissions :=
      round.submissions.map (fun submission =>
        { participantId := submission.participantId
          participantName := submission.participantName
          submittedAt := submission.submittedAt }) }

def toCompletedRoundSnapshot (round : CompletedRoundState) :
    CompletedRoundSnapshot :=
  { roundNumber := round.roundNumber
    turnParticipantId := round.turnParticipantId
    turnParticipantName := round.turnParticipantName
    calledNumber := round.calledNumber
    activeLetter := round.activeLetter
    startedAt := round.startedAt
    countdownEndsAt := round.countdownEndsAt
    endsAt := round.endsAt
    endedAt := round.endedAt
    endReason := round.endReason
    scorePublishedAt := round.scorePublishedAt
    submissionsCount := round.submissions.length
    submissions := round.submissions }

def buildSnapshot (state : StoredRoomState) : RoomSnapshot :=
  { meta := state.meta
    participants := state.participants
    counts := countStatuses state.participants
    game :=
      { status := state.game.status
        startedAt := state.game.startedAt
        cancelledAt := state.game.cancelledAt
        finishedAt := state.game.finishedAt
        config := state.game.config
        turnOrder := state.game.turnOrder
        currentTurnIndex := state.game.currentTurnIndex
        currentTurnParticipantId := currentTurnParticipantId state
        activeRound := state.game.activeRound.map toActiveRoundSnapshot
        completedRounds :=
          state.game.completedRounds.map toCompletedRoundSnapshot
        scoring := buildScoringSummary state } }

/-! ## Marks and config validation -/

/-- `Partial<RoundMarks>`: each field either absent or a boolean. -/
structure PartialRoundMarks where
  name : Option Bool
  animal : Option Bool
  place : Option Bool
  thing : Option Bool
  food : Option Bool
deriving DecidableEq

/-- `Partial<RoundAnswers>`. -/
structure PartialRoundAnswers where
  name : Option String
  animal : Option String
  place : Option String
  thing : Option String
  food : Option String
deriving DecidableEq

/-- Overlay of partial input answers onto a base (the shared
field-by-field `normalizeTextAnswer(input.x ?? base.x)` block of
`submitRoundAnswers` and `updateRoundDraft`). -/
def overlayAnswers (input : PartialRoundAnswers) (base : RoundAnswers) :
    RoundAnswers :=
  { name := normalizeTextAnswer (input.name.getD base.name)
    animal := normalizeTextAnswer (input.animal.getD base.animal)
    place := normalizeTextAnswer (input.place.getD base.place)
    thing := normalizeTextAnswer (input.thing.getD base.thing)
    food := normalizeTextAnswer (input.food.getD base.food) }

def normalizeMarks (input : PartialRoundMarks) : MutationResult RoundMarks :=
  match input.name with
  | none => .err 400 "marks.name must be boolean"
  | some n =>
    match input.animal with
    | none => .err 400 "marks.animal must be boolean"
    | some a =>
      match input.place with
      | none => .err 400 "marks.place must be boolean"
      | some p =>
        match input.thing with
        | none => .err 400 "marks.thing must be boolean"
        | some t =>
          match input.food with
          | none => .err 400 "marks.food must be boolean"
          | some f =>
            .ok { name := n, animal := a, place := p, thing := t, food := f }

structure StartGameInput where
  roundSeconds : Option Int
  endRule : Option RoundEndRule
  manualEndPolicy : Option ManualEndPolicy
  scoringMode : Option ScoringMode
deriving DecidableEq

/-- `normalizeGameConfig`; the enum-membership checks of the source are
vacuous for typed inputs and the `Number.isInteger` check is vacuous for
an `Int` input, so only the range and cross-field checks remain. -/
def normalizeGameConfig (input : Option StartGameInput) :
    MutationResult GameConfig :=
  let endRule := (input.bind (·.endRule)).getD .WHICHEVER_FIRST
  let manualEndPolicy :=
    (input.bind (·.manualEndPolicy)).getD DEFAULT_MANUAL_END_POLICY
  let scoringMode := (input.bind (·.scoringMode)).getD DEFAULT_SCORING_MODE
  let roundSeconds := (input.bind (·.roundSeconds)).getD DEFAULT_ROUND_SECONDS
  if roundSeconds < MIN_ROUND_SECONDS ∨ MAX_ROUND_SECONDS < roundSeconds then
    .err 400 "roundSeconds must be an integer between 5 and 120"
  else if manualEndPolicy = .CALLER_OR_TIMER ∧ endRule = .FIRST_SUBMISSION then
    .err 400 "CALLER_OR_TIMER requires a timer-based endRule"
  else
    .ok { roundSeconds, endRule, manualEndPolicy, scoringMode }

def isHostTokenValid (state : StoredRoomState) (hostToken : String) : Bool :=
  (trimString hostToken).length > 0 && hostToken == state.hostToken

def buildTurnOrder (state : StoredRoomState) : List String :=
  (admittedParticipants state).map (·.id)

/-! ## Transitions -/

/-- `[...list, x].slice(-n)` keeps the last `n` elements. -/
def takeLast (n : Nat) (l : List α) : List α := l.drop (l.length - n)

/-- `findIndex` together with the element found (`l[idx]`). -/
def findIdxAndElem (p : α → Bool) : List α → Option (Nat × α)
  | [] => none
  | x :: xs =>
    if p x then some (0, x)
    else (findIdxAndElem p xs).map (fun r => (r.1 + 1, r.2))

def initializeRoomState (payload : RoomInitPayload) (nowIso : Time) :
    StoredRoomState :=
  { meta :=
      { roomCode := payload.roomCode
        hostName := normalizeName payload.hostName
        maxParticipants := payload.maxParticipants }
    hostToken := payload.hostToken
    participants :=
      [{ id := "host"
         name := normalizeName payload.hostName
         status := .ADMITTED
         isHost := true
         createdAt := nowIso
         updatedAt := nowIso }]
    game :=
      { status := .LOBBY
        startedAt := none
        cancelledAt := none
        finishedAt := none
        config :=
          { roundSeconds := DEFAULT_ROUND_SECONDS
            endRule := .WHICHEVER_FIRST
            manualEndPolicy := DEFAULT_MANUAL_END_POLICY
            scoringMode := DEFAULT_SCORING_MODE }
        turnOrder := []
        currentTurnIndex := 0
        activeRound := none
        completedRounds := [] } }

/-- `createJoinRequest`; the id produced by `crypto.randomUUID()` is the
explicit parameter `newParticipantId`. -/
def createJoinRequest (state : StoredRoomState) (newParticipantId : String)
    (rawName : String) (nowIso : Time) : JoinMutationResult :=
  let name := normalizeName rawName
  if ¬(state.game.status = .LOBBY) then
    .err 410 "join link has expired for this room"
  else if name.length < MIN_NAME_LENGTH ∨ MAX_NAME_LENGTH < name.length then
    .err 400 "name must be between 2 and 24 characters"
  else if participantNameExists state.participants name then
    .err 409 "name already exists in this room"
  else if state.meta.maxParticipants ≤
      ((countStatuses state.participants).admitted : Int) then
    .err 409 "room is full"
  else
    let participant : Participant :=
      { id := newParticipantId
        name
        status := .PENDING
        isHost := false
        createdAt := nowIso
        updatedAt := nowIso }
    .ok
      { nextState :=
          { state with participants := state.participants ++ [participant] }
        participant }

def resolveJoinRequest (state : StoredRoomState) (requestId : String)
    (approve : Bool) (nowIso : Time) : AdmitMutationResult :=
  if isGameCancelled state then
    .err 409 "game has been cancelled"
  else if ¬(state.game.status = .LOBBY) then
    .err 409 "cannot change admissions after game has started"
  else
    match state.participants.find? (fun p => p.id == requestId) with
    | none => .err 404 "join request not found"
    | some current =>
      if ¬(current.status = .PENDING) then
        .err 409 "join request already resolved"
      else if approve ∧ state.meta.maxParticipants ≤
          ((countStatuses state.participants).admitted : Int) then
        .err 409 "room is full"
      else
        let nextParticipant : Participant :=
          { current with
            status := if approve then .ADMITTED else .REJECTED
            updatedAt := nowIso }
        .ok
          { nextState :=
              { state with
                participants :=
                  state.participants.map (fun p =>
                    if p.id == requestId then nextParticipant else p) }
            participant := nextParticipant }

def startGame (state : StoredRoomState) (hostToken : String)
    (configInput : Option StartGameInput) (nowIso : Time) :
    StartMutationResult :=
  if ¬isHostTokenValid state hostToken then
    .err 401 "invalid host token"
  else if isGameCancelled state then
    .err 409 "game has been cancelled"
  else if ¬(state.game.status = .LOBBY) then
    .err 409 "game has already started"
  else if (countStatuses state.participants).pending > 0 then
    .err 409 "cannot start game while join requests are pending"
  else
    let turnOrder := buildTurnOrder state
    if turnOrder.length < 2 then
      .err 409 "at least 2 admitted participants are required to start"
    else
      let limits :=
        scoringLimits { state with game := { state.game with turnOrder } }
      if limits.maxRounds < 1 then
        .err 409 "unable to start game for current player count"
      else
        match normalizeGameConfig configInput with
        | .err status msg => .err status msg
        | .ok config =>
          .ok
            { nextState :=
                { state with
                  participants := admittedParticipants state
                  game :=
                    { status := .IN_PROGRESS
                      startedAt := some nowIso
                      cancelledAt := none
                      finishedAt := none
                      config
                      turnOrder
                      currentTurnIndex := 0
                      activeRound := none
                      completedRounds := [] } } }

def callNumberForTurn (state : StoredRoomState) (participantId : String)
    (calledNumber : Int) (nowIso : Time) : CallNumberResult :=
  if isGameCancelled state then
    .err 409 "game has been cancelled"
  else if ¬(state.game.status = .IN_PROGRESS) then
    .err 409 "game has not started"
  else if state.game.activeRound.isSome then
    .err 409 "round already in progress"
  else if state.game.completedRounds.any
      (fun round => !round.scorePublishedAt.isSome) then
    .err 409 "submit or discard previous round result before starting next round"
  else
    let limits := scoringLimits state
    if limits.maxRounds > 0 ∧
        limits.maxRounds ≤ state.game.completedRounds.length then
      .err 409 "maximum fair rounds reached"
    else if calledNumber < 1 ∨ 26 < calledNumber then
      .err 400 "number must be an integer between 1 and 26"
    else if (usedNumbers state).contains calledNumber then
      .err 409 "letter has already been used"
    else if ¬isParticipantAdmitted state participantId then
      .err 403 "participant is not admitted"
    else
      match currentTurnParticipantId state with
      | none => .err 403 "it is not this participant's turn"
      | some expectedParticipantId =>
        if ¬(expectedParticipantId = participantId) then
          .err 403 "it is not this participant's turn"
        else
          match participantById state participantId with
          | none => .err 404 "participant not found"
          | some participant =>
            let countdownEndsAt := nowIso + ROUND_COUNTDOWN_SECONDS * 1000
            let endsAt : Option Time :=
              if ¬(state.game.config.endRule = .FIRST_SUBMISSION) then
                some (nowIso +
                  (ROUND_COUNTDOWN_SECONDS + state.game.config.roundSeconds) *
                    1000)
              else none
            let round : ActiveRoundState :=
              { roundNumber := state.game.completedRounds.length + 1
                turnParticipantId := participant.id
                turnParticipantName := participant.name
                calledNumber
                activeLetter := numberToLetter calledNumber
                startedAt := nowIso
                countdownEndsAt
                endsAt
                submissions := []
                drafts := [] }
            .ok
              { nextState :=
                  { state with
                    game := { state.game with activeRound := some round } }
                activeRound := round }

def endActiveRound (state : StoredRoomState) (reason : RoundEndReason)
    (nowIso : Time) : EndRoundResult :=
  if ¬(state.game.status = .IN_PROGRESS) then
    .err 409 "game has not started"
  else
    match state.game.activeRound with
    | none => .err 409 "no active round to end"
    | some activeRound =>
      let completedRound : CompletedRoundState :=
        { activeRound with
          endedAt := nowIso
          endReason := reason
          scorePublishedAt := none }
      let nextTurnIndex :=
        if state.game.turnOrder.length = 0 then 0
        else (state.game.currentTurnIndex + 1) % state.game.turnOrder.length
      .ok
        { nextState :=
            { state with
              game :=
                { state.game with
                  currentTurnIndex := nextTurnIndex
                  activeRound := none
                  completedRounds :=
                    takeLast MAX_COMPLETED_ROUNDS
                      (state.game.completedRounds ++ [completedRound]) } }
          completedRound }

def blankSubmission (participant : Participant) (nowIso : Time)
    (answers : RoundAnswers) : RoundSubmission :=
  { participantId := participant.id
    participantName := participant.name
    answers
    submittedAt := nowIso
    review := none }

def withForcedSubmissions (state : StoredRoomState) (nowIso : Time) :
    Option StoredRoomState :=
  match state.game.activeRound with
  | none => none
  | some activeRound =>
    let seen := activeRound.submissions.map (·.participantId)
    let additions :=
      (admittedParticipants state).filterMap (fun participant =>
        if participant.id ∈ seen then none
        else
          some (blankSubmission participant nowIso
            ((lookupDraft activeRound.drafts participant.id).getD
              emptyAnswers)))
    if additions = [] then some state
    else
      some
        { state with
          game :=
            { state.game with
              activeRound :=
                some
                  { activeRound with
                    submissions := activeRound.submissions ++ additions } } }

def finalizeRoundWithForcedSubmissions (state : StoredRoomState)
    (reason : RoundEndReason) (nowIso : Time) : EndRoundResult :=
  match withForcedSubmissions state nowIso with
  | none => .err 409 "no active round to end"
  | some stateWithForced => endActiveRound stateWithForced reason nowIso

def endRoundManually (state : StoredRoomState) (participantId : String)
    (nowIso : Time) : EndRoundResult :=
  if isGameCancelled state then
    .err 409 "game has been cancelled"
  else if ¬(state.game.status = .IN_PROGRESS) then
    .err 409 "game has not started"
  else
    match state.game.activeRound with
    | none => .err 409 "no active round to end"
    | some activeRound =>
      if ¬isParticipantAdmitted state participantId then
        .err 403 "participant is not admitted"
      else
        match participantById state participantId with
        | none => .err 404 "participant not found"
        | some participant =>
          let policy := state.game.config.manualEndPolicy
          let isCaller : Bool :=
            participant.id == activeRound.turnParticipantId
          let canEnd : Bool :=
            match policy with
            | .HOST_OR_CALLER => participant.isHost || isCaller
            | .CALLER_ONLY => isCaller
            | .CALLER_OR_TIMER => isCaller
            | .NONE => false
          if ¬canEnd then
            .err 403
              (match policy with
               | .HOST_OR_CALLER =>
                 "only the host or current caller can end the round"
               | .CALLER_ONLY => "only the current caller can end the round"
               | .CALLER_OR_TIMER =>
                 "only the current caller can end early; timer will also end the round"
               | .NONE => "manual round end is disabled for this room")
          else finalizeRoundWithForcedSubmissions state .MANUAL_END nowIso

def submitRoundAnswers (state : StoredRoomState) (participantId : String)
    (inputAnswers : PartialRoundAnswers) (nowIso : Time) : SubmitResult :=
  if isGameCancelled state then
    .err 409 "game has been cancelled"
  else if ¬(state.game.status = .IN_PROGRESS) then
    .err 409 "game has not started"
  else
    match state.game.activeRound with
    | none => .err 409 "no active round"
    | some activeRound =>
      if ¬isRoundCountdownOver activeRound nowIso then
        .err 409 "round countdown in progress"
      else if ¬isParticipantAdmitted state participantId then
        .err 403 "participant is not admitted"
      else if activeRound.submissions.any
          (fun s => s.participantId == participantId) then
        .err 409 "participant has already submitted"
      else
        match participantById state participantId with
        | none => .err 404 "participant not found"
        | some participant =>
          let existingDraft :=
            (lookupDraft activeRound.drafts participantId).getD emptyAnswers
          let answers : RoundAnswers := overlayAnswers inputAnswers existingDraft
          let submission : RoundSubmission :=
            { participantId
              participantName := participant.name
              answers
              submittedAt := nowIso
              review := none }
          let withSubmission : StoredRoomState :=
            { state with
              game :=
                { state.game with
                  activeRound :=
                    some
                      { activeRound with
                        submissions := activeRound.submissions ++ [submission]
                        drafts := removeDraft activeRound.drafts participantId } } }
          if ¬(state.game.config.endRule = .FIRST_SUBMISSION ∨
              state.game.config.endRule = .WHICHEVER_FIRST) then
            .ok
              { nextState := withSubmission
                submission
                roundEnded := false
                completedRound := none }
          else
            match finalizeRoundWithForcedSubmissions withSubmission
                .FIRST_SUBMISSION nowIso with
            | .err status msg => .err status msg
            | .ok ended =>
              .ok
                { nextState := ended.nextState
                  submission
                  roundEnded := true
                  completedRound := some ended.completedRound }

def updateRoundDraft (state : StoredRoomState) (participantId : String)
    (inputAnswers : PartialRoundAnswers) (nowIso : Time) : DraftUpdateResult :=
  if isGameCancelled state ∨ isGameFinished state then
    .err 409 "game is not accepting answers"
  else if ¬(state.game.status = .IN_PROGRESS) then
    .err 409 "game has not started"
  else
    match state.game.activeRound with
    | none => .err 409 "no active round"
    | some activeRound =>
      if ¬isRoundCountdownOver activeRound nowIso then
        .err 409 "round countdown in progress"
      else if ¬isParticipantAdmitted state participantId then
        .err 403 "participant is not admitted"
      else if activeRound.submissions.any
          (fun s => s.participantId == participantId) then
        .err 409 "participant has already submitted"
      else
        let previous :=
          (lookupDraft activeRound.drafts participantId).getD emptyAnswers
        let draftAnswers : RoundAnswers := overlayAnswers inputAnswers previous
        .ok
          { nextState :=
              { state with
                game :=
                  { state.game with
                    activeRound :=
                      some
                        { activeRound with
                          drafts :=
                            setDraft activeRound.drafts participantId
                              draftAnswers } } } }

def scoreRoundSubmission (state : StoredRoomState) (hostToken : String)
    (roundNumber : Int) (participantId : String)
    (marksInput : PartialRoundMarks) (nowIso : Time) :
    ScoreSubmissionResult :=
  if isGameCancelled state ∨ isGameFinished state then
    .err 409 "game is not accepting score changes"
  else if ¬isHostTokenValid state hostToken then
    .err 401 "invalid host token"
  else
    match hostParticipant state with
    | none => .err 404 "host not found"
    | some host =>
      if roundNumber < 1 then
        .err 400 "roundNumber must be a positive integer"
      else
        match normalizeMarks marksInput with
        | .err status msg => .err status msg
        | .ok marks =>
          match findIdxAndElem
              (fun round => (round.roundNumber : Int) == roundNumber)
              state.game.completedRounds with
          | none => .err 404 "round not found"
          | some (roundIndex, round) =>
            if round.scorePublishedAt.isSome then
              .err 409 "round has already been published"
            else
              match findIdxAndElem
                  (fun s => s.participantId == participantId)
                  round.submissions with
              | none => .err 404 "submission not found"
              | some (submissionIndex, foundSubmission) =>
                let nextReview : SubmissionReview :=
                  { marks
                    scores :=
                      { name := 0, animal := 0, place := 0, thing := 0
                        food := 0, total := 0 }
                    markedByParticipantId := host.id
                    markedByParticipantName := host.name
                    markedAt := nowIso }
                let nextSubmission : RoundSubmission :=
                  { foundSubmission with review := some nextReview }
                let provisionalRound : CompletedRoundState :=
                  { round with
                    submissions :=
                      round.submissions.set submissionIndex nextSubmission }
                let nextRound :=
                  recomputeRoundReviewScores provisionalRound
                    state.game.config.scoringMode
                match nextRound.submissions.get? submissionIndex with
                | none => .err 404 "submission not found"
                | some updatedSubmission =>
                  .ok
                    { nextState :=
                        { state with
                          game :=
                            { state.game with
                              completedRounds :=
                                state.game.completedRounds.set roundIndex
                                  nextRound } }
                      updatedSubmission }

def publishRoundScores (state : StoredRoomState) (hostToken : String)
    (roundNumber : Int) (nowIso : Time) : PublishRoundScoresResult :=
  if isGameCancelled state ∨ isGameFinished state then
    .err 409 "game is not accepting score changes"
  else if ¬isHostTokenValid state hostToken then
    .err 401 "invalid host token"
  else if roundNumber < 1 then
    .err 400 "roundNumber must be a positive integer"
  else
    match findIdxAndElem
        (fun round => (round.roundNumber : Int) == roundNumber)
        state.game.completedRounds with
    | none => .err 404 "round not found"
    | some (roundIndex, round) =>
      if round.scorePublishedAt.isSome then
        .err 409 "round has already been published"
      else if ¬roundIsFullyReviewed round then
        .err 409 "all submissions must be reviewed before publishing round"
      else
        let nextRound : CompletedRoundState :=
          { round with scorePublishedAt := some nowIso }
        .ok
          { nextState :=
              { state with
                game :=
                  { state.game with
                    completedRounds :=
                      state.game.completedRounds.set roundIndex nextRound } }
            round := nextRound }

def discardRoundScores (state : StoredRoomState) (hostToken : String)
    (roundNumber : Int) (nowIso : Time) : DiscardRoundScoresResult :=
  if isGameCancelled state ∨ isGameFinished state then
    .err 409 "game is not accepting score changes"
  else if ¬isHostTokenValid state hostToken then
    .err 401 "invalid host token"
  else if roundNumber < 1 then
    .err 400 "roundNumber must be a positive integer"
  else
    match findIdxAndElem
        (fun round => (round.roundNumber : Int) == roundNumber)
        state.game.completedRounds with
    | none => .err 404 "round not found"
    | some (roundIndex, round) =>
      if round.scorePublishedAt.isSome then
        .err 409 "round has already been finalized"
      else
        let nextRound : CompletedRoundState :=
          { round with
            submissions :=
              round.submissions.map (fun s => { s with review := none })
            scorePublishedAt := some nowIso }
        .ok
          { nextState :=
              { state with
                game :=
                  { state.game with
                    completedRounds :=
                      state.game.completedRounds.set roundIndex nextRound } }
            round := nextRound }

def cancelGame (state : StoredRoomState) (hostToken : String)
    (nowIso : Time) : CancelGameResult :=
  if ¬isHostTokenValid state hostToken then
    .err 401 "invalid host token"
  else if isGameCancelled state then
    .err 409 "game is already cancelled"
  else if isGameFinished state then
    .err 409 "game has already ended"
  else
    .ok
      { nextState :=
          { state with
            game :=
              { state.game with
                status := .CANCELLED
                cancelledAt := some nowIso
                finishedAt := none
                activeRound := none } } }

def endGame (state : StoredRoomState) (hostToken : String) (nowIso : Time) :
    EndGameResult :=
  if ¬isHostTokenValid state hostToken then
    .err 401 "invalid host token"
  else if isGameCancelled state then
    .err 409 "game has been cancelled"
  else if isGameFinished state then
    .err 409 "game has already ended"
  else if ¬(state.game.status = .IN_PROGRESS) then
    .err 409 "game has not started"
  else
    .ok
      { nextState :=
          { state with
            game :=
              { state.game with
                status := .FINISHED
                finishedAt := some nowIso
                activeRound := none
                completedRounds :=
                  state.game.completedRounds.map (fun round =>
                    if round.scorePublishedAt.isSome ∨
                        ¬roundIsFullyReviewed round then
                      round
                    else { round with scorePublishedAt := some nowIso }) } } }

/-- Room-creation validation of the worker handler
(`index.ts`, `POST /api/rooms`): the host name is only trimmed and only
its minimum length is checked; `maxParticipants` must lie in `[1, 10]`.
The generated room code and host token are explicit parameters. -/
def handleCreateRoom (rawHostName : String) (maxParticipants : Int)
    (roomCode hostToken : String) : MutationResult RoomInitPayload :=
  let hostName := trimString rawHostName
  if hostName.length < 2 then
    .err 400 "hostName must be at least 2 characters"
  else if maxParticipants < 1 ∨ 10 < maxParticipants then
    .err 400 "maxParticipants must be an integer between 1 and 10"
  else
    .ok { roomCode, hostName, maxParticipants, hostToken }

/-! ## Reachability -/

/-- States reachable from room initialisation (gated by the worker
handler's create-room validation) through the published transitions.
The timer path of the durable object's `alarm()` calls
`finalizeRoundWithForcedSubmissions` with reason `TIMER`. -/
inductive Reachable : StoredRoomState → Prop where
  | init (rawHostName : String) (maxParticipants : Int)
      (roomCode hostToken : String) (payload : RoomInitPayload) (now : Time) :
      handleCreateRoom rawHostName maxParticipants roomCode hostToken =
        .ok payload →
      Reachable (initializeRoomState payload now)
  | join {s : StoredRoomState} (newId rawName : String) (now : Time)
      (r : JoinOk) : Reachable s →
      createJoinRequest s newId rawName now = .ok r →
      Reachable r.nextState
  | resolveJoin {s : StoredRoomState} (requestId : String) (approve : Bool)
      (now : Time) (r : AdmitOk) : Reachable s →
      resolveJoinRequest s requestId approve now = .ok r →
      Reachable r.nextState
  | start {s : StoredRoomState} (hostToken : String)
      (config : Option StartGameInput) (now : Time) (r : StartOk) :
      Reachable s → startGame s hostToken config now = .ok r →
      Reachable r.nextState
  | call {s : StoredRoomState} (participantId : String) (n : Int)
      (now : Time) (r : CallOk) : Reachable s →
      callNumberForTurn s participantId n now = .ok r →
      Reachable r.nextState
  | draft {s : StoredRoomState} (participantId : String)
      (answers : PartialRoundAnswers) (now : Time) (r : StateOnlyOk) :
      Reachable s → updateRoundDraft s participantId answers now = .ok r →
      Reachable r.nextState
  | submit {s : StoredRoomState} (participantId : String)
      (answers : PartialRoundAnswers) (now : Time) (r : SubmitOk) :
      Reachable s → submitRoundAnswers s participantId answers now = .ok r →
      Reachable r.nextState
  | manualEnd {s : StoredRoomState} (participantId : String) (now : Time)
      (r : EndRoundOk) : Reachable s →
      endRoundManually s participantId now = .ok r →
      Reachable r.nextState
  | timerEnd {s : StoredRoomState} (now : Time) (r : EndRoundOk) :
      Reachable s →
      finalizeRoundWithForcedSubmissions s .TIMER now = .ok r →
      Reachable r.nextState
  | score {s : StoredRoomState} (hostToken : String) (roundNumber : Int)
      (participantId : String) (marks : PartialRoundMarks) (now : Time)
      (r : ScoreOk) : Reachable s →
      scoreRoundSubmission s hostToken roundNumber participantId marks now =
        .ok r →
      Reachable r.nextState
  | publish {s : StoredRoomState} (hostToken : String) (roundNumber : Int)
      (now : Time) (r : PublishOk) : Reachable s →
      publishRoundScores s hostToken roundNumber now = .ok r →
      Reachable r.nextState
  | discard {s : StoredRoomState} (hostToken : String) (roundNumber : Int)
      (now : Time) (r : DiscardOk) : Reachable s →
      discardRoundScores s hostToken roundNumber now = .ok r →
      Reachable r.nextState
  | cancel {s : StoredRoomState} (hostToken : String) (now : Time)
      (r : StateOnlyOk) : Reachable s → cancelGame s hostToken now = .ok r →
      Reachable r.nextState
  | finish {s : StoredRoomState} (hostToken : String) (now : Time)
      (r : StateOnlyOk) : Reachable s → endGame s hostToken now = .ok r →
      Reachable r.nextState

/-! ## Auxiliary definitions for the statements -/

/-- The state with its host token replaced (everything else equal). -/
def withHostToken (state : StoredRoomState) (token : String) :
    StoredRoomState :=
  { state with hostToken := token }

/-- The state with the active round's drafts replaced (everything else
equal; no active round means no change). -/
def withActiveDrafts (state : StoredRoomState)
    (drafts : List (String × RoundAnswers)) : StoredRoomState :=
  { state with
    game :=
      { state.game with
        activeRound :=
          state.game.activeRound.map (fun round => { round with drafts }) } }

/-- A reviewed submission whose mark for `field` is true. -/
def isReviewedCorrect (submission : RoundSubmission) (field : RoundField) :
    Bool :=
  match submission.review with
  | some review => review.marks.get field
  | none => false

/-- The number `k` of the SHARED_10 specification: reviewed submissions
of the round whose mark for `field` is true and whose normalised answer
for `field` equals `key`. -/
def sharedCorrectCount (submissions : List RoundSubmission)
    (field : RoundField) (key : String) : Nat :=
  (submissions.filter (fun current =>
    isReviewedCorrect current field &&
      (answerKeyForField current field == key))).length

/-- SHARED_10 field score as the specification words it: a field marked
true scores `round(10 / k, 2)` unless the normalised answer is empty, in
which case (as for an unmarked or unreviewed field) it scores 0. -/
def specSharedFieldScore (submissions : List RoundSubmission)
    (submission : RoundSubmission) (field : RoundField) : ℚ :=
  match submission.review with
  | none => 0
  | some review =>
    if review.marks.get field then
      let key := answerKeyForField submission field
      if key = "" then 0
      else
        roundScoreValue
          (SCORE_PER_CORRECT_FIELD /
            (sharedCorrectCount submissions field key : ℚ))
    else 0

/-- A string that is trimmed (no leading or trailing whitespace) and
whitespace-collapsed (no two adjacent whitespace characters; every
whitespace character is a single space). -/
def isTrimmedCollapsed (s : String) : Prop :=
  (∀ c ∈ s.data.head?, ¬c.isWhitespace) ∧
    (∀ c ∈ s.data.getLast?, ¬c.isWhitespace) ∧
    List.Chain' (fun a b => ¬(a.isWhitespace ∧ b.isWhitespace)) s.data ∧
    ∀ c ∈ s.data, c.isWhitespace → c = ' '

/-- The submissions forced at round end: one blank-or-draft submission
per admitted participant who has not submitted yet (the additions loop
of `withForcedSubmissions`). -/
def forcedAdditions (state : StoredRoomState) (activeRound : ActiveRoundState)
    (nowIso : Time) : List RoundSubmission :=
  (admittedParticipants state).filterMap (fun participant =>
    if participant.id ∈ activeRound.submissions.map (·.participantId) then none
    else
      some (blankSubmission participant nowIso
        ((lookupDraft activeRound.drafts participant.id).getD emptyAnswers)))

/-! ## Concrete example rooms (used by witnesses and counterexamples) -/

def exampleConfig : GameConfig :=
  { roundSeconds := 20
    endRule := .WHICHEVER_FIRST
    manualEndPolicy := .HOST_OR_CALLER
    scoringMode := .FIXED_10 }

def exampleHost : Participant :=
  { id := "host", name := "Qudus", status := .ADMITTED, isHost := true
    createdAt := 0, updatedAt := 0 }

def exampleAdaPending : Participant :=
  { id := "p1", name := "Ada", status := .PENDING, isHost := false
    createdAt := 1, updatedAt := 1 }

def exampleAda : Participant :=
  { id := "p1", name := "Ada", status := .ADMITTED, isHost := false
    createdAt := 1, updatedAt := 2 }

def cexPayload : RoomInitPayload :=
  { roomCode := "ROOM", hostName := "Qudus", maxParticipants := 4
    hostToken := "tok" }

def cexS0 : StoredRoomState := initializeRoomState cexPayload 0

def cexS1 : StoredRoomState :=
  { cexS0 with participants := [exampleHost, exampleAdaPending] }

def cexS2 : StoredRoomState :=
  { cexS0 with participants := [exampleHost, exampleAda] }

def cexS3 : StoredRoomState :=
  { meta := cexS0.meta
    hostToken := "tok"
    participants := [exampleHost, exampleAda]
    game :=
      { status := .IN_PROGRESS
        startedAt := some 3
        cancelledAt := none
        finishedAt := none
        config := exampleConfig
        turnOrder := ["host", "p1"]
        currentTurnIndex := 0
        activeRound := none
        completedRounds := [] } }

def cexS4 : StoredRoomState :=
  { cexS3 with
    game :=
      { cexS3.game with
        status := .CANCELLED
        cancelledAt := some 4
        activeRound := none } }

/-- A host name of 25 characters: accepted by the create-room handler. -/
def longHostName : String := "aaaaaaaaaaaaaaaaaaaaaaaaa"

def longNamePayload : RoomInitPayload :=
  { roomCode := "LONG", hostName := longHostName, maxParticipants := 4
    hostToken := "tok" }

def longNameState : StoredRoomState := initializeRoomState longNamePayload 0

/-- An in-progress room with an open active round (for the turn-rotation
and first-submission witnesses). -/
def exampleActiveRound : ActiveRoundState :=
  { roundNumber := 1
    turnParticipantId := "host"
    turnParticipantName := "Qudus"
    calledNumber := 3
    activeLetter := "C"
    startedAt := 0
    countdownEndsAt := 3000
    endsAt := some 23000
    submissions := []
    drafts := [("host", { name := "Cleo", animal := "", place := "", thing := "", food := "" })] }

def exampleInProgress : StoredRoomState :=
  { cexS3 with
    game := { cexS3.game with activeRound := some exampleActiveRound } }

/-- A room whose first completed round is published (for the
publication-finality witness). -/
def publishedReview : SubmissionReview :=
  { marks := { name := true, animal := true, place := true, thing := true, food := true }
    scores := { name := 10, animal := 10, place := 10, thing := 10, food := 10, total := 50 }
    markedByParticipantId := "host"
    markedByParticipantName := "Qudus"
    markedAt := 5 }

def publishedRoundSubmission : RoundSubmission :=
  { participantId := "p1"
    participantName := "Ada"
    answers := { name := "Cora", animal := "Cat", place := "Cairo", thing := "Cup", food := "Cake" }
    submittedAt := 4
    review := some publishedReview }

def publishedRound : CompletedRoundState :=
  { roundNumber := 1
    turnParticipantId := "host"
    turnParticipantName := "Qudus"
    calledNumber := 3
    activeLetter := "C"
    startedAt := 0
    countdownEndsAt := 3000
    endsAt := none
    submissions := [publishedRoundSubmission]
    drafts := []
    endedAt := 4
    endReason := .FIRST_SUBMISSION
    scorePublishedAt := some 6 }

def statePublished : StoredRoomState :=
  { cexS3 with
    game :=
      { cexS3.game with
        currentTurnIndex := 1
        completedRounds := [publishedRound] } }

/-- A cancelled room (for the terminal-absorption witness). -/
def stateCancelled : StoredRoomState := cexS4

/-- A fully-specified marks payload (all five fields boolean). -/
def fullMarksInput : PartialRoundMarks :=
  { name := some true, animal := some true, place := some true
    thing := some true, food := some true }

/-- A complete answers payload for the first-submission witness. -/
def fullAnswersInput : PartialRoundAnswers :=
  { name := some "Cora", animal := some "Cat", place := some "Cairo"
    thing := some "Cup", food := some "Cake" }

/-- A lobby with only the host admitted (for the leaderboard witness:
its leaderboard has exactly one entry). -/
def soloState : StoredRoomState :=
  { meta := cexS0.meta
    hostToken := "tok"
    participants := [exampleHost]
    game := cexS0.game }

def soloSummary : ParticipantScoreSummary := participantSummary [] exampleHost

/-- A SHARED_10 round where two reviewed submissions share every answer
(for the scoring witness: each field is worth 5). -/
def sharedMarks : RoundMarks :=
  { name := true, animal := true, place := true, thing := true, food := true }

def sharedReview : SubmissionReview :=
  { marks := sharedMarks
    scores := { name := 0, animal := 0, place := 0, thing := 0, food := 0, total := 0 }
    markedByParticipantId := "host"
    markedByParticipantName := "Qudus"
    markedAt := 9 }

def sharedAnswers : RoundAnswers :=
  { name := "Ada", animal := "Ant", place := "Accra", thing := "Axe", food := "Apple" }

def sharedSubmissionA : RoundSubmission :=
  { participantId := "host", participantName := "Qudus"
    answers := sharedAnswers, submittedAt := 7, review := some sharedReview }

def sharedSubmissionB : RoundSubmission :=
  { participantId := "p1", participantName := "Ada"
    answers := sharedAnswers, submittedAt := 8, review := some sharedReview }

def sharedRound : CompletedRoundState :=
  { roundNumber := 1
    turnParticipantId := "host"
    turnParticipantName := "Qudus"
    calledNumber := 1
    activeLetter := "A"
    startedAt := 0
    countdownEndsAt := 3000
    endsAt := none
    submissions := [sharedSubmissionA, sharedSubmissionB]
    drafts := []
    endedAt := 9
    endReason := .TIMER
    scorePublishedAt := none }

/-- A 14-player room that has played its 14 fair rounds
(`⌊26/14⌋ * 14 = 14`), for the fair-round-ceiling witness. -/
def smallName (i : Nat) : String := ⟨[Char.ofNat (97 + i)]⟩

def ceilingParticipant (i : Nat) : Participant :=
  { id := smallName i, name := smallName i, status := .ADMITTED
    isHost := false, createdAt := (i : Int), updatedAt := (i : Int) }

def ceilingRound (i : Nat) : CompletedRoundState :=
  { roundNumber := i + 1
    turnParticipantId := "a"
    turnParticipantName := "a"
    calledNumber := (i : Int) + 1
    activeLetter := "A"
    startedAt := 0
    countdownEndsAt := 0
    endsAt := none
    submissions := []
    drafts := []
    endedAt := 0
    endReason := .TIMER
    scorePublishedAt := some 0 }

def ceilingState : StoredRoomState :=
  { meta := { roomCode := "ROOM", hostName := "Qudus", maxParticipants := 10 }
    hostToken := "tok"
    participants := (List.range 14).map ceilingParticipant
    game :=
      { status := .IN_PROGRESS
        startedAt := some 0
        cancelledAt := none
        finishedAt := none
        config := exampleConfig
        turnOrder := (List.range 14).map smallName
        currentTurnIndex := 0
        activeRound := none
        completedRounds := (List.range 14).map ceilingRound } }

/-! ## Lemmas about the stable sort -/

theorem insertLe_perm (le : α → α → Bool) (x : α) (l : List α) :
    (insertLe le x l).Perm (x :: l) := by
  induction l with
  | nil => simp [insertLe]
  | cons y ys ih =>
    simp only [insertLe]
    split
    · exact (ih.cons y).trans (List.Perm.swap x y ys)
    · exact List.Perm.refl _

theorem sortByLe_perm (le : α → α → Bool) (l : List α) :
    (sortByLe le l).Perm l := by
  suffices h : ∀ acc : List α,
      (l.foldl (fun acc x => insertLe le x acc) acc).Perm (l ++ acc) by
    simpa using h []
  induction l with
  | nil => intro acc; simp
  | cons x xs ih =>
    intro acc
    simp only [List.foldl_cons, List.cons_append]
    exact (ih (insertLe le x acc)).trans
      (((insertLe_perm le x acc).append_left xs).trans List.perm_middle)

theorem sortByLe_length (le : α → α → Bool) (l : List α) :
    (sortByLe le l).length = l.length :=
  (sortByLe_perm le l).length_eq

theorem sortByLe_mem (le : α → α → Bool) (l : List α) (a : α) :
    a ∈ sortByLe le l ↔ a ∈ l :=
  (sortByLe_perm le l).mem_iff

theorem insertLe_pairwise (le : α → α → Bool)
    (htrans : ∀ a b c, le a b = true → le b c = true → le a c = true)
    (htotal : ∀ a b, le a b = true ∨ le b a = true) (x : α) (l : List α)
    (h : l.Pairwise (fun a b => le a b = true)) :
    (insertLe le x l).Pairwise (fun a b => le a b = true) := by
  induction l with
  | nil => simp [insertLe]
  | cons y ys ih =>
    rcases List.pairwise_cons.mp h with ⟨hy, hys⟩
    simp only [insertLe]
    split
    · refine List.pairwise_cons.mpr ⟨?_, ih hys⟩
      intro b hb
      rcases List.mem_cons.mp ((insertLe_perm le x ys).mem_iff.mp hb) with
        hb | hb
      · subst hb; assumption
      · exact hy b hb
    · rename_i hxy
      have hxyle : le x y = true := by
        rcases htotal x y with h1 | h1
        · exact h1
        · exact absurd h1 hxy
      refine List.pairwise_cons.mpr ⟨?_, h⟩
      intro b hb
      rcases List.mem_cons.mp hb with hb | hb
      · subst hb; exact hxyle
      · exact htrans x y b hxyle (hy b hb)

theorem sortByLe_pairwise (le : α → α → Bool)
    (htrans : ∀ a b c, le a b = true → le b c = true → le a c = true)
    (htotal : ∀ a b, le a b = true ∨ le b a = true) (l : List α) :
    (sortByLe le l).Pairwise (fun a b => le a b = true) := by
  suffices h : ∀ acc : List α, acc.Pairwise (fun a b => le a b = true) →
      (l.foldl (fun acc x => insertLe le x acc) acc).Pairwise
        (fun a b => le a b = true) by
    exact h [] (by simp)
  induction l with
  | nil => intro acc hacc; simpa using hacc
  | cons x xs ih =>
    intro acc hacc
    simp only [List.foldl_cons]
    exact ih _ (insertLe_pairwise le htrans htotal x acc hacc)

/-! ## Lemmas about the code-point order -/

theorem charListLe_total : ∀ l1 l2 : List Char,
    charListLe l1 l2 = true ∨ charListLe l2 l1 = true := by
  intro l1
  induction l1 with
  | nil => intro l2; left; rfl
  | cons a as ih =>
    intro l2
    cases l2 with
    | nil => right; rfl
    | cons b bs =>
      simp only [charListLe]
      rcases Nat.lt_trichotomy a.toNat b.toNat with h | h | h
      · left; simp [h]
      · have h1 : ¬a.toNat < b.toNat := by omega
        have h2 : ¬b.toNat < a.toNat := by omega
        simpa [h1, h2] using ih bs
      · right; simp [h]

theorem charListLe_trans : ∀ l1 l2 l3 : List Char,
    charListLe l1 l2 = true → charListLe l2 l3 = true →
    charListLe l1 l3 = true := by
  intro l1
  induction l1 with
  | nil => intro l2 l3 _ _; rfl
  | cons a as ih =>
    intro l2 l3 h12 h23
    cases l2 with
    | nil => simp [charListLe] at h12
    | cons b bs =>
      cases l3 with
      | nil => simp [charListLe] at h23
      | cons c cs =>
        simp only [charListLe] at h12 h23 ⊢
        by_cases hab : a.toNat < b.toNat
        · by_cases hbc : b.toNat < c.toNat
          · have hac : a.toNat < c.toNat := by omega
            simp [hac]
          · by_cases hcb : c.toNat < b.toNat
            · rw [if_neg hbc, if_pos hcb] at h23
              exact absurd h23 (by simp)
            · have hac : a.toNat < c.toNat := by omega
              simp [hac]
        · by_cases hba : b.toNat < a.toNat
          · rw [if_neg hab, if_pos hba] at h12
            exact absurd h12 (by simp)
          · rw [if_neg hab, if_neg hba] at h12
            by_cases hbc : b.toNat < c.toNat
            · have hac : a.toNat < c.toNat := by omega
              simp [hac]
            · by_cases hcb : c.toNat < b.toNat
              · rw [if_neg hbc, if_pos hcb] at h23
                exact absurd h23 (by simp)
              · rw [if_neg hbc, if_neg hcb] at h23
                have h1 : ¬a.toNat < c.toNat := by omega
                have h2 : ¬c.toNat < a.toNat := by omega
                rw [if_neg h1, if_neg h2]
                exact ih bs cs h12 h23

theorem strLe_total (a b : String) : strLe a b = true ∨ strLe b a = true :=
  charListLe_total a.data b.data

theorem strLe_trans {a b c : String} (h1 : strLe a b = true)
    (h2 : strLe b c = true) : strLe a c = true :=
  charListLe_trans a.data b.data c.data h1 h2

/-! ## C5: snapshot secrecy -/

/-- C5: the snapshot contains neither the host token nor any draft:
changing `hostToken`, or the drafts of the active round, leaves
`buildSnapshot` unchanged, and the active-round projection exposes for
each submission only `participantId`, `participantName` and
`submittedAt`. -/
theorem snapshot_hides_secrets (state : StoredRoomState) (token : String)
    (drafts : List (String × RoundAnswers)) :
    buildSnapshot (withHostToken state token) = buildSnapshot state ∧
    buildSnapshot (withActiveDrafts state drafts) = buildSnapshot state ∧
    ∀ round : ActiveRoundState,
      (toActiveRoundSnapshot round).submissions =
        round.submissions.map (fun s =>
          { participantId := s.participantId
            participantName := s.participantName
            submittedAt := s.submittedAt }) := by
  refine ⟨rfl, ?_, fun round => rfl⟩
  cases h : state.game.activeRound with
  | none =>
    have hg : withActiveDrafts state drafts = state := by
      unfold withActiveDrafts
      rw [h]
      simp only [Option.map_none']
      rw [← h]
    rw [hg]
  | some ar =>
    have hstate : state =
        { state with
          game := { state.game with activeRound := some ar } } := by
      rw [← h]
    conv_rhs => rw [hstate]
    unfold withActiveDrafts
    rw [h]
    rfl

/-! ## C1: SHARED_10 scoring -/

/-- The code's SHARED_10 field score agrees with the specification's:
for a submission of the round, the `k < 1` guard of the code is dead
because the submission itself is counted. -/
theorem fieldScore_eq_specShared (subs : List RoundSubmission)
    (s : RoundSubmission) (field : RoundField) (hmem : s ∈ subs) :
    fieldScoreForSubmission subs s field .SHARED_10 =
      specSharedFieldScore subs s field := by
  unfold fieldScoreForSubmission specSharedFieldScore
  cases hr : s.review with
  | none => rfl
  | some review =>
    by_cases hm : review.marks.get field = true
    · simp only [hm, Bool.not_true, if_pos, if_true]
      rw [if_neg (by simp), if_neg (by simp)]
      by_cases hk : answerKeyForField s field = ""
      · rw [if_pos hk, if_pos hk]
      · rw [if_neg hk, if_neg hk]
        have hcount : (subs.countP fun current =>
            (match current.review with
             | some r => r.marks.get field
             | none => false) &&
              (answerKeyForField current field == answerKeyForField s field)) =
            sharedCorrectCount subs field (answerKeyForField s field) := by
          rw [sharedCorrectCount, ← List.countP_eq_length_filter]
          apply List.countP_congr
          intro a _
          cases hra : a.review <;> simp [isReviewedCorrect, hra]
        have hpos :
            0 < sharedCorrectCount subs field (answerKeyForField s field) := by
          rw [sharedCorrectCount]
          apply List.length_pos_of_mem
          exact List.mem_filter.mpr ⟨hmem, by simp [isReviewedCorrect, hr, hm]⟩
        rw [hcount, if_neg (by omega)]
    · simp only [Bool.not_eq_true] at hm
      simp [hm]

/-- C1: under SHARED_10, recomputing a round's review scores gives every
reviewed submission, in every field, exactly the specification's score:
`round(10/k, 2)` for a true mark with a non-empty normalised answer
(`k` counting the reviewed-correct submissions sharing that answer), 0
otherwise; the total is the sum of the five field scores rounded to two
decimals. -/
theorem shared10_scoring (round : CompletedRoundState) (i : Nat)
    (hi : i < round.submissions.length) (review : SubmissionReview)
    (hrev : (round.submissions.get ⟨i, hi⟩).review = some review) :
    ∃ hi2 : i <
        (recomputeRoundReviewScores round .SHARED_10).submissions.length,
      ∃ review2 : SubmissionReview,
        ((recomputeRoundReviewScores round .SHARED_10).submissions.get
            ⟨i, hi2⟩).review = some review2 ∧
        review2.marks = review.marks ∧
        (∀ field : RoundField,
          review2.scores.get field =
            specSharedFieldScore round.submissions
              (round.submissions.get ⟨i, hi⟩) field) ∧
        review2.scores.total =
          roundScoreValue
            (specSharedFieldScore round.submissions
                (round.submissions.get ⟨i, hi⟩) .name +
              specSharedFieldScore round.submissions
                (round.submissions.get ⟨i, hi⟩) .animal +
              specSharedFieldScore round.submissions
                (round.submissions.get ⟨i, hi⟩) .place +
              specSharedFieldScore round.submissions
                (round.submissions.get ⟨i, hi⟩) .thing +
              specSharedFieldScore round.submissions
                (round.submissions.get ⟨i, hi⟩) .food) := by
  have hlen :
      (recomputeRoundReviewScores round .SHARED_10).submissions.length =
        round.submissions.length := by
    simp [recomputeRoundReviewScores]
  have hi2 : i <
      (recomputeRoundReviewScores round .SHARED_10).submissions.length := by
    omega
  refine ⟨hi2, ?_⟩
  have hmem : round.submissions.get ⟨i, hi⟩ ∈ round.submissions :=
    List.get_mem _ _ _
  simp only [List.get_eq_getElem] at hrev hmem ⊢
  have hget :
      (recomputeRoundReviewScores round .SHARED_10).submissions[i] =
        { round.submissions[i] with
          review := some
            { review with
              scores :=
                buildFieldScoresForSubmission round.submissions
                  round.submissions[i] .SHARED_10 } } := by
    simp only [recomputeRoundReviewScores, List.getElem_map]
    rw [hrev]
  refine ⟨{ review with
      scores :=
        buildFieldScoresForSubmission round.submissions
          round.submissions[i] .SHARED_10 }, ?_, rfl, ?_, ?_⟩
  · rw [hget]
  · intro field
    cases field <;>
      (simp only [buildFieldScoresForSubmission, RoundFieldScores.get];
        exact fieldScore_eq_specShared round.submissions _ _ hmem)
  · simp only [buildFieldScoresForSubmission]
    rw [fieldScore_eq_specShared round.submissions _ .name hmem,
      fieldScore_eq_specShared round.submissions _ .animal hmem,
      fieldScore_eq_specShared round.submissions _ .place hmem,
      fieldScore_eq_specShared round.submissions _ .thing hmem,
      fieldScore_eq_specShared round.submissions _ .food hmem]

/-- Witness for the SHARED_10 scoring theorem at a round where two
reviewed submissions share every answer. -/
theorem shared10_scoring_witness :
    (0 : Nat) < sharedRound.submissions.length ∧
    (sharedRound.submissions.get ⟨0, by decide⟩).review =
      some sharedReview ∧
    (∃ hi2 : 0 <
        (recomputeRoundReviewScores sharedRound .SHARED_10).submissions.length,
      ∃ review2 : SubmissionReview,
        ((recomputeRoundReviewScores sharedRound .SHARED_10).submissions.get
            ⟨0, hi2⟩).review = some review2 ∧
        review2.marks = sharedReview.marks ∧
        (∀ field : RoundField,
          review2.scores.get field =
            specSharedFieldScore sharedRound.submissions
              (sharedRound.submissions.get ⟨0, by decide⟩) field) ∧
        review2.scores.total =
          roundScoreValue
            (specSharedFieldScore sharedRound.submissions
                (sharedRound.submissions.get ⟨0, by decide⟩) .name +
              specSharedFieldScore sharedRound.submissions
                (sharedRound.submissions.get ⟨0, by decide⟩) .animal +
              specSharedFieldScore sharedRound.submissions
                (sharedRound.submissions.get ⟨0, by decide⟩) .place +
              specSharedFieldScore sharedRound.submissions
                (sharedRound.submissions.get ⟨0, by decide⟩) .thing +
              specSharedFieldScore sharedRound.submissions
                (sharedRound.submissions.get ⟨0, by decide⟩) .food)) :=
  ⟨by decide, rfl, shared10_scoring sharedRound 0 (by decide) sharedReview rfl⟩

/-! ## C4: first-submission early close -/

theorem lookupDraft_removeDraft_ne (drafts : List (String × RoundAnswers))
    (pid qid : String) (h : qid ≠ pid) :
    lookupDraft (removeDraft drafts pid) qid = lookupDraft drafts qid := by
  unfold lookupDraft removeDraft
  induction drafts with
  | nil => rfl
  | cons e rest ih =>
    by_cases he : e.1 = pid
    · have h1 : (e.1 != pid) = false := by simp [he]
      have h2 : (e.1 == qid) = false := by
        simp only [beq_eq_false_iff_ne, ne_eq]
        intro hq
        exact h (by rw [← hq, he])
      simp only [List.filter_cons, h1, if_false, List.find?_cons, h2]
      exact ih
    · have h1 : (e.1 != pid) = true := by simp [he]
      simp only [List.filter_cons, h1, if_true, List.find?_cons]
      cases hq : e.1 == qid
      · exact ih
      · rfl

/-- `withForcedSubmissions` always extends the active round's
submissions by exactly `forcedAdditions` (also when that list is
empty). -/
theorem withForcedSubmissions_eq (state : StoredRoomState) (now : Time)
    (ar : ActiveRoundState) (har : state.game.activeRound = some ar) :
    withForcedSubmissions state now = some
      { state with
        game :=
          { state.game with
            activeRound :=
              some
                { ar with
                  submissions :=
                    ar.submissions ++ forcedAdditions state ar now } } } := by
  unfold withForcedSubmissions forcedAdditions
  rw [har]
  dsimp only
  split_ifs with hadds
  · rw [hadds, List.append_nil]
    conv_lhs =>
      rw [show state =
        { state with
          game := { state.game with activeRound := some ar } } from by
        rw [← har]]
  · rfl

/-- Counting, in the forced additions, the submissions of a given
participant id. -/
theorem countP_forced (l : List Participant) (seen : List String)
    (drafts : List (String × RoundAnswers)) (now : Time) (x : String) :
    ((l.filterMap (fun participant =>
        if participant.id ∈ seen then none
        else
          some (blankSubmission participant now
            ((lookupDraft drafts participant.id).getD
              emptyAnswers)))).countP (fun s => s.participantId == x)) =
      l.countP (fun q => decide (q.id = x ∧ q.id ∉ seen)) := by
  induction l with
  | nil => rfl
  | cons p rest ih =>
    simp only [List.filterMap_cons]
    by_cases hp : p.id ∈ seen
    · rw [if_pos hp]
      rw [ih, List.countP_cons]
      simp [hp]
    · rw [if_neg hp]
      rw [List.countP_cons, List.countP_cons, ih, blankSubmission]
      by_cases hx : p.id = x
      · subst hx
        simp [hp]
      · simp [hx, hp]

/-- One occurrence of `x` under an injective-on-this-list projection. -/
theorem countP_proj_eq_one {α : Type} (f : α → String) (l : List α)
    (x : String) (hnd : (l.map f).Nodup) (a : α) (ha : a ∈ l)
    (hax : f a = x) : l.countP (fun q => f q == x) = 1 := by
  have h1 : l.countP (fun q => f q == x) =
      (l.map f).countP (fun s => s == x) := by
    rw [List.countP_map]
    rfl
  rw [h1, ← List.count]
  exact List.count_eq_one_of_mem hnd (List.mem_map.mpr ⟨a, ha, hax⟩)

theorem countP_proj_eq_zero {α : Type} (f : α → String) (l : List α)
    (x : String) (h : ∀ a ∈ l, f a ≠ x) :
    l.countP (fun q => f q == x) = 0 :=
  List.countP_eq_zero.mpr (fun a ha => by simpa using h a ha)

/-- Shape of the submissions of a round closed by forced submission:
the prior submissions, the new one, and one forced submission per
admitted participant not seen yet — exactly one entry per admitted
participant, no entry for anyone else, and the forced entries are built
from the drafts (or empty answers). -/
theorem forced_coverage {admitted : List Participant}
    {old : List RoundSubmission} {sub : RoundSubmission}
    {drafts : List (String × RoundAnswers)} {now : Time} {pid : String}
    (hsubpid : sub.participantId = pid)
    (hnew : ∀ s ∈ old, s.participantId ≠ pid)
    (hnodupSubs : (old.map (·.participantId)).Nodup)
    (hsubsAdm : ∀ s ∈ old, s.participantId ∈ admitted.map (·.id))
    (hnodupAdm : (admitted.map (·.id)).Nodup)
    (hpidAdm : pid ∈ admitted.map (·.id)) :
    (∀ p ∈ admitted, (((old ++ [sub]) ++ admitted.filterMap (fun q =>
        if q.id ∈ (old ++ [sub]).map (·.participantId) then none
        else some (blankSubmission q now
          ((lookupDraft drafts q.id).getD emptyAnswers)))).countP
        (fun s => s.participantId == p.id)) = 1) ∧
    (∀ s ∈ (old ++ [sub]) ++ admitted.filterMap (fun q =>
        if q.id ∈ (old ++ [sub]).map (·.participantId) then none
        else some (blankSubmission q now
          ((lookupDraft drafts q.id).getD emptyAnswers))),
      s.participantId ∈ admitted.map (·.id)) ∧
    (∀ p ∈ admitted, p.id ≠ pid →
      (∀ s ∈ old, s.participantId ≠ p.id) →
      ∃ s ∈ (old ++ [sub]) ++ admitted.filterMap (fun q =>
          if q.id ∈ (old ++ [sub]).map (·.participantId) then none
          else some (blankSubmission q now
            ((lookupDraft drafts q.id).getD emptyAnswers))),
        s.participantId = p.id ∧
        s.answers = (lookupDraft drafts p.id).getD emptyAnswers ∧
        s.submittedAt = now ∧ s.review = none) := by
  have hseen : (old ++ [sub]).map (·.participantId) =
      old.map (·.participantId) ++ [pid] := by
    simp [hsubpid]
  refine ⟨?_, ?_, ?_⟩
  · intro p hp
    rw [List.countP_append, List.countP_append, countP_forced]
    by_cases hpx : p.id = pid
    · have h1 : old.countP (fun s => s.participantId == p.id) = 0 :=
        countP_proj_eq_zero _ _ _ (fun s hs => by
          rw [hpx]; exact hnew s hs)
      have h3 : (admitted.countP (fun q => decide (q.id = p.id ∧
          q.id ∉ (old ++ [sub]).map (·.participantId)))) = 0 := by
        apply List.countP_eq_zero.mpr
        intro q hq
        simp only [decide_eq_true_eq, not_and, not_not]
        intro hqid
        rw [hseen, hqid, hpx]
        exact List.mem_append_right _ (by simp)
      rw [h1, h3]
      simp [hsubpid, hpx]
    · have h2 : (sub.participantId == p.id) = false := by
        rw [hsubpid]
        simp only [beq_eq_false_iff_ne, ne_eq]
        exact fun hc => hpx hc.symm
      by_cases hpold : p.id ∈ old.map (·.participantId)
      · obtain ⟨s0, hs0, hs0x⟩ := List.mem_map.mp hpold
        have h1 : old.countP (fun s => s.participantId == p.id) = 1 :=
          countP_proj_eq_one _ _ _ hnodupSubs s0 hs0 hs0x
        have h3 : (admitted.countP (fun q => decide (q.id = p.id ∧
            q.id ∉ (old ++ [sub]).map (·.participantId)))) = 0 := by
          apply List.countP_eq_zero.mpr
          intro q hq
          simp only [decide_eq_true_eq, not_and, not_not]
          intro hqid
          rw [hseen, hqid]
          exact List.mem_append_left _ hpold
        rw [h1, h3]
        simp [h2]
      · have h1 : old.countP (fun s => s.participantId == p.id) = 0 :=
          countP_proj_eq_zero _ _ _ (fun s hs hc =>
            hpold (List.mem_map.mpr ⟨s, hs, hc⟩))
        have hnotin : p.id ∉ (old ++ [sub]).map (·.participantId) := by
          rw [hseen]
          intro hmem
          rcases List.mem_append.mp hmem with hmem | hmem
          · exact hpold hmem
          · exact hpx (by simpa using hmem)
        have h3 : (admitted.countP (fun q => decide (q.id = p.id ∧
            q.id ∉ (old ++ [sub]).map (·.participantId)))) = 1 := by
          rw [List.countP_congr (q := fun q => q.id == p.id) ?_]
          · exact countP_proj_eq_one _ _ _ hnodupAdm p hp rfl
          · intro q hq
            by_cases hqid : q.id = p.id
            · rw [hqid]
              exact iff_of_true (decide_eq_true ⟨rfl, hnotin⟩)
                (by simp [hqid])
            · simp [hqid]
        rw [h1, h3]
        simp [h2]
  · intro s hs
    rcases List.mem_append.mp hs with hs | hs
    · rcases List.mem_append.mp hs with hs | hs
      · exact hsubsAdm s hs
      · rcases List.mem_singleton.mp hs with rfl
        rw [hsubpid]
        exact hpidAdm
    · obtain ⟨q, hq, hfq⟩ := List.mem_filterMap.mp hs
      split_ifs at hfq
      rw [← Option.some.inj hfq]
      exact List.mem_map.mpr ⟨q, hq, rfl⟩
  · intro p hp hne2 hold2
    have hseen2 : p.id ∉ (old ++ [sub]).map (·.participantId) := by
      rw [hseen]
      intro hmem
      rcases List.mem_append.mp hmem with hmem | hmem
      · obtain ⟨s0, hs0, hs0x⟩ := List.mem_map.mp hmem
        exact hold2 s0 hs0 hs0x
      · exact hne2 (by simpa using hmem)
    exact ⟨blankSubmission p now
      ((lookupDraft drafts p.id).getD emptyAnswers),
      List.mem_append_right _
        (List.mem_filterMap.mpr ⟨p, hp, by rw [if_neg hseen2]⟩),
      rfl, rfl, rfl, rfl⟩

/-- C4: with endRule FIRST_SUBMISSION or WHICHEVER_FIRST, a successful
submit ends the round with reason FIRST_SUBMISSION: the active round is
cleared, the round is appended to `completedRounds`, its submissions
hold exactly one entry per admitted participant (and none for anyone
else), and every admitted participant who had not submitted gets a
forced submission built from their draft, or empty answers without
one. -/
theorem first_submission_closes (state : StoredRoomState)
    (participantId : String) (inputAnswers : PartialRoundAnswers)
    (now : Time) (ar : ActiveRoundState)
    (hst : state.game.status = .IN_PROGRESS)
    (har : state.game.activeRound = some ar)
    (hrule : state.game.config.endRule = .FIRST_SUBMISSION ∨
      state.game.config.endRule = .WHICHEVER_FIRST)
    (hcd : isRoundCountdownOver ar now = true)
    (hadm : isParticipantAdmitted state participantId = true)
    (hnew : ∀ s ∈ ar.submissions, s.participantId ≠ participantId)
    (hnodupSubs : (ar.submissions.map (·.participantId)).Nodup)
    (hsubsAdm : ∀ s ∈ ar.submissions,
      s.participantId ∈ (admittedParticipants state).map (·.id))
    (hnodupAdm : ((admittedParticipants state).map (·.id)).Nodup)
    (hroom : state.game.completedRounds.length < MAX_COMPLETED_ROUNDS) :
    ∃ r : SubmitOk,
      submitRoundAnswers state participantId inputAnswers now = .ok r ∧
      r.roundEnded = true ∧
      ∃ c : CompletedRoundState, r.completedRound = some c ∧
        c.endReason = .FIRST_SUBMISSION ∧
        r.nextState.game.activeRound = none ∧
        r.nextState.game.completedRounds =
          state.game.completedRounds ++ [c] ∧
        (∀ p ∈ admittedParticipants state,
          c.submissions.countP (fun s => s.participantId == p.id) = 1) ∧
        (∀ s ∈ c.submissions,
          s.participantId ∈ (admittedParticipants state).map (·.id)) ∧
        (∀ p ∈ admittedParticipants state, p.id ≠ participantId →
          (∀ s ∈ ar.submissions, s.participantId ≠ p.id) →
          ∃ s ∈ c.submissions, s.participantId = p.id ∧
            s.answers = (lookupDraft ar.drafts p.id).getD emptyAnswers ∧
            s.submittedAt = now ∧ s.review = none) := by
  have hadm2 := hadm
  unfold isParticipantAdmitted at hadm2
  cases hpb : participantById state participantId with
  | none =>
    rw [hpb] at hadm2
    exact absurd hadm2 (by simp)
  | some participant =>
  rw [hpb] at hadm2
  have hpb2 : state.participants.find? (fun p => p.id == participantId) =
      some participant := hpb
  have hpid : participant.id = participantId := by
    simpa using List.find?_some hpb2
  have hpmem : participant ∈ state.participants :=
    List.mem_of_find?_eq_some hpb2
  have hstatus : participant.status = .ADMITTED := by simpa using hadm2
  have hpadm : participant ∈ admittedParticipants state := by
    unfold admittedParticipants sortParticipantsByJoinOrder
    exact (sortByLe_mem _ _ _).mpr
      (List.mem_filter.mpr ⟨hpmem, by simp [hstatus]⟩)
  have hpidAdm : participantId ∈ (admittedParticipants state).map (·.id) :=
    List.mem_map.mpr ⟨participant, hpadm, hpid⟩
  have hany : (ar.submissions.any fun s => s.participantId == participantId) =
      false := by
    rw [List.any_eq_false]
    intro s hs
    simpa using hnew s hs
  unfold submitRoundAnswers
  rw [if_neg (by simp [isGameCancelled, hst]), if_neg (by simp [hst]), har]
  dsimp only
  rw [if_neg (by simp [hcd]), if_neg (by simp [hadm]),
    if_neg (by simp [hany]), hpb]
  dsimp only
  rw [if_neg (not_not_intro hrule)]
  unfold finalizeRoundWithForcedSubmissions
  rw [withForcedSubmissions_eq _ now _ rfl]
  dsimp only
  unfold endActiveRound
  rw [if_neg (by simp [hst])]
  dsimp only
  refine ⟨_, rfl, rfl, _, rfl, rfl, rfl, ?_, ?_, ?_, ?_⟩
  · have hz : state.game.completedRounds.length + 1 -
        MAX_COMPLETED_ROUNDS = 0 := by
      unfold MAX_COMPLETED_ROUNDS at hroom ⊢
      omega
    simp [takeLast, hz]
  · intro p hp
    unfold forcedAdditions
    dsimp only
    exact (forced_coverage rfl hnew hnodupSubs hsubsAdm hnodupAdm
      hpidAdm).1 p hp
  · intro s hs
    unfold forcedAdditions at hs
    dsimp only at hs
    exact (forced_coverage rfl hnew hnodupSubs hsubsAdm hnodupAdm
      hpidAdm).2.1 s hs
  · intro p hp hne2 hold2
    unfold forcedAdditions
    dsimp only
    obtain ⟨s, hsmem, hs1, hs2, hs3, hs4⟩ :=
      (@forced_coverage (admittedParticipants state) ar.submissions
        { participantId := participantId
          participantName := participant.name
          answers := overlayAnswers inputAnswers
            ((lookupDraft ar.drafts participantId).getD emptyAnswers)
          submittedAt := now
          review := none }
        (removeDraft ar.drafts participantId) now participantId
        rfl hnew hnodupSubs hsubsAdm hnodupAdm hpidAdm).2.2 p hp hne2 hold2
    refine ⟨s, ?_, hs1, ?_, hs3, hs4⟩
    · exact hsmem
    · rw [hs2, lookupDraft_removeDraft_ne _ _ _ hne2]

/-- Witness for the first-submission close at the example room, where
Ada submits first and the host falls back to a draft. -/
theorem first_submission_closes_witness :
    exampleInProgress.game.status = .IN_PROGRESS ∧
    exampleInProgress.game.activeRound = some exampleActiveRound ∧
    (exampleInProgress.game.config.endRule = .FIRST_SUBMISSION ∨
      exampleInProgress.game.config.endRule = .WHICHEVER_FIRST) ∧
    isRoundCountdownOver exampleActiveRound 5000 = true ∧
    isParticipantAdmitted exampleInProgress "p1" = true ∧
    (∃ r : SubmitOk,
      submitRoundAnswers exampleInProgress "p1" fullAnswersInput 5000 =
        .ok r ∧
      r.roundEnded = true ∧
      ∃ c : CompletedRoundState, r.completedRound = some c ∧
        c.endReason = .FIRST_SUBMISSION ∧
        r.nextState.game.activeRound = none ∧
        r.nextState.game.completedRounds =
          exampleInProgress.game.completedRounds ++ [c] ∧
        (∀ p ∈ admittedParticipants exampleInProgress,
          c.submissions.countP (fun s => s.participantId == p.id) = 1) ∧
        (∀ s ∈ c.submissions,
          s.participantId ∈
            (admittedParticipants exampleInProgress).map (·.id)) ∧
        (∀ p ∈ admittedParticipants exampleInProgress, p.id ≠ "p1" →
          (∀ s ∈ exampleActiveRound.submissions,
            s.participantId ≠ p.id) →
          ∃ s ∈ c.submissions, s.participantId = p.id ∧
            s.answers =
              (lookupDraft exampleActiveRound.drafts p.id).getD
                emptyAnswers ∧
            s.submittedAt = 5000 ∧ s.review = none)) :=
  ⟨rfl, rfl, Or.inr rfl, by decide, by decide,
    first_submission_closes exampleInProgress "p1" fullAnswersInput 5000
      exampleActiveRound rfl rfl (Or.inr rfl) (by decide) (by decide)
      (by decide) (by decide) (by decide) (by decide) (by decide)⟩

/-! ## C3: publication finality -/

/-- C3: once a completed round has `scorePublishedAt` set, scoring a
submission of it, publishing it again, and discarding it all fail with a
409 Conflict (given a valid host token and a game that is neither
cancelled nor finished; a failure carries no next state). `hfind` names
the round the operations address, exactly as the code looks it up. -/
theorem publication_finality (state : StoredRoomState) (hostToken : String)
    (rn : Int) (participantId : String) (marksInput : PartialRoundMarks)
    (now : Time) (idx : Nat) (round : CompletedRoundState)
    (hnc : ¬state.game.status = .CANCELLED)
    (hnf : ¬state.game.status = .FINISHED)
    (htok : isHostTokenValid state hostToken = true)
    (hhost : (hostParticipant state).isSome = true)
    (hrn : 1 ≤ rn)
    (hmarks : (normalizeMarks marksInput).isOk = true)
    (hfind : findIdxAndElem (fun r => (r.roundNumber : Int) == rn)
        state.game.completedRounds = some (idx, round))
    (hpub : round.scorePublishedAt.isSome = true) :
    ((scoreRoundSubmission state hostToken rn participantId marksInput
        now).isErr = true ∧
      (scoreRoundSubmission state hostToken rn participantId marksInput
        now).errStatus? = some 409) ∧
    ((publishRoundScores state hostToken rn now).isErr = true ∧
      (publishRoundScores state hostToken rn now).errStatus? = some 409) ∧
    ((discardRoundScores state hostToken rn now).isErr = true ∧
      (discardRoundScores state hostToken rn now).errStatus? = some 409) := by
  have hterm : ¬(isGameCancelled state = true ∨ isGameFinished state = true) := by
    simp [isGameCancelled, isGameFinished, hnc, hnf]
  obtain ⟨host, hh⟩ := Option.isSome_iff_exists.mp hhost
  refine ⟨?_, ?_, ?_⟩
  · unfold scoreRoundSubmission
    rw [if_neg hterm, if_neg (by simp [htok]), hh]
    dsimp only
    rw [if_neg (show ¬rn < 1 by omega)]
    cases hm : normalizeMarks marksInput with
    | ok marks =>
      dsimp only
      rw [hfind]
      dsimp only
      rw [if_pos hpub]
      exact ⟨rfl, rfl⟩
    | err status msg =>
      rw [hm] at hmarks
      simp [MutationResult.isOk] at hmarks
  · unfold publishRoundScores
    rw [if_neg hterm, if_neg (by simp [htok]), if_neg (by omega), hfind]
    dsimp only
    rw [if_pos hpub]
    exact ⟨rfl, rfl⟩
  · unfold discardRoundScores
    rw [if_neg hterm, if_neg (by simp [htok]), if_neg (by omega), hfind]
    dsimp only
    rw [if_pos hpub]
    exact ⟨rfl, rfl⟩

/-- Witness for publication finality at a room whose round 1 is
published. -/
theorem publication_finality_witness :
    ¬statePublished.game.status = .CANCELLED ∧
    ¬statePublished.game.status = .FINISHED ∧
    isHostTokenValid statePublished "tok" = true ∧
    (hostParticipant statePublished).isSome = true ∧
    (1 : Int) ≤ 1 ∧
    (normalizeMarks fullMarksInput).isOk = true ∧
    findIdxAndElem (fun r => (r.roundNumber : Int) == 1)
      statePublished.game.completedRounds = some (0, publishedRound) ∧
    publishedRound.scorePublishedAt.isSome = true ∧
    ((scoreRoundSubmission statePublished "tok" 1 "p1" fullMarksInput
        10).isErr = true ∧
      (scoreRoundSubmission statePublished "tok" 1 "p1" fullMarksInput
        10).errStatus? = some 409) ∧
    ((publishRoundScores statePublished "tok" 1 10).isErr = true ∧
      (publishRoundScores statePublished "tok" 1 10).errStatus? =
        some 409) ∧
    ((discardRoundScores statePublished "tok" 1 10).isErr = true ∧
      (discardRoundScores statePublished "tok" 1 10).errStatus? =
        some 409) := by
  have h := publication_finality statePublished "tok" 1 "p1" fullMarksInput
    10 0 publishedRound (by decide) (by decide) (by decide) (by decide)
    (by decide) (by decide) rfl rfl
  exact ⟨by decide, by decide, by decide, by decide, by decide, by decide,
    rfl, rfl, h.1, h.2.1, h.2.2⟩

/-! ## C10: terminal statuses are absorbing -/

/-- C10: in a cancelled or finished game every mutating transition
fails (and returns no next state — a failure carries none), so the
stored room state never changes again. -/
theorem terminal_absorbing (state : StoredRoomState)
    (h : state.game.status = .CANCELLED ∨ state.game.status = .FINISHED)
    (newId rawName requestId : String) (approve : Bool)
    (hostToken : String) (config : Option StartGameInput)
    (participantId : String) (n : Int) (answers : PartialRoundAnswers)
    (reason : RoundEndReason) (rn : Int) (marks : PartialRoundMarks)
    (now : Time) :
    (createJoinRequest state newId rawName now).isErr = true ∧
    (resolveJoinRequest state requestId approve now).isErr = true ∧
    (startGame state hostToken config now).isErr = true ∧
    (callNumberForTurn state participantId n now).isErr = true ∧
    (updateRoundDraft state participantId answers now).isErr = true ∧
    (submitRoundAnswers state participantId answers now).isErr = true ∧
    (endRoundManually state participantId now).isErr = true ∧
    (endActiveRound state reason now).isErr = true ∧
    (finalizeRoundWithForcedSubmissions state reason now).isErr = true ∧
    (scoreRoundSubmission state hostToken rn participantId marks
      now).isErr = true ∧
    (publishRoundScores state hostToken rn now).isErr = true ∧
    (discardRoundScores state hostToken rn now).isErr = true ∧
    (cancelGame state hostToken now).isErr = true ∧
    (endGame state hostToken now).isErr = true := by
  have hnl : ¬state.game.status = .LOBBY := by
    rcases h with h | h <;> simp [h]
  have hni : ¬state.game.status = .IN_PROGRESS := by
    rcases h with h | h <;> simp [h]
  have hor : isGameCancelled state = true ∨ isGameFinished state = true := by
    rcases h with h | h
    · exact Or.inl (by simp [isGameCancelled, h])
    · exact Or.inr (by simp [isGameFinished, h])
  refine ⟨?_, ?_, ?_, ?_, ?_, ?_, ?_, ?_, ?_, ?_, ?_, ?_, ?_, ?_⟩
  · unfold createJoinRequest
    rw [if_pos hnl]; rfl
  · unfold resolveJoinRequest
    rcases h with h | h
    · rw [if_pos (by simp [isGameCancelled, h])]; rfl
    · rw [if_neg (by simp [isGameCancelled, h]), if_pos hnl]; rfl
  · unfold startGame
    by_cases htok : isHostTokenValid state hostToken = true
    · rw [if_neg (by simp [htok])]
      rcases h with h | h
      · rw [if_pos (by simp [isGameCancelled, h])]; rfl
      · rw [if_neg (by simp [isGameCancelled, h]), if_pos hnl]; rfl
    · rw [if_pos (by simp [htok])]; rfl
  · unfold callNumberForTurn
    rcases h with h | h
    · rw [if_pos (by simp [isGameCancelled, h])]; rfl
    · rw [if_neg (by simp [isGameCancelled, h]), if_pos hni]; rfl
  · unfold updateRoundDraft
    rw [if_pos hor]; rfl
  · unfold submitRoundAnswers
    rcases h with h | h
    · rw [if_pos (by simp [isGameCancelled, h])]; rfl
    · rw [if_neg (by simp [isGameCancelled, h]), if_pos hni]; rfl
  · unfold endRoundManually
    rcases h with h | h
    · rw [if_pos (by simp [isGameCancelled, h])]; rfl
    · rw [if_neg (by simp [isGameCancelled, h]), if_pos hni]; rfl
  · unfold endActiveRound
    rw [if_pos hni]; rfl
  · unfold finalizeRoundWithForcedSubmissions withForcedSubmissions
    cases har : state.game.activeRound with
    | none => rfl
    | some ar =>
      dsimp only
      split_ifs <;>
        (unfold endActiveRound; dsimp only; rw [if_pos hni]; rfl)
  · unfold scoreRoundSubmission
    rw [if_pos hor]; rfl
  · unfold publishRoundScores
    rw [if_pos hor]; rfl
  · unfold discardRoundScores
    rw [if_pos hor]; rfl
  · unfold cancelGame
    by_cases htok : isHostTokenValid state hostToken = true
    · rw [if_neg (by simp [htok])]
      rcases h with h | h
      · rw [if_pos (by simp [isGameCancelled, h])]; rfl
      · rw [if_neg (by simp [isGameCancelled, h]),
          if_pos (by simp [isGameFinished, h])]; rfl
    · rw [if_pos (by simp [htok])]; rfl
  · unfold endGame
    by_cases htok : isHostTokenValid state hostToken = true
    · rw [if_neg (by simp [htok])]
      rcases h with h | h
      · rw [if_pos (by simp [isGameCancelled, h])]; rfl
      · rw [if_neg (by simp [isGameCancelled, h]),
          if_pos (by simp [isGameFinished, h])]; rfl
    · rw [if_pos (by simp [htok])]; rfl

/-- Witness for terminal absorption at a concrete cancelled room. -/
theorem terminal_absorbing_witness :
    (stateCancelled.game.status = .CANCELLED ∨
      stateCancelled.game.status = .FINISHED) ∧
    (createJoinRequest stateCancelled "p2" "Eve" 9).isErr = true ∧
    (resolveJoinRequest stateCancelled "p1" true 9).isErr = true ∧
    (startGame stateCancelled "tok" none 9).isErr = true ∧
    (callNumberForTurn stateCancelled "host" 5 9).isErr = true ∧
    (updateRoundDraft stateCancelled "host"
      { name := none, animal := none, place := none, thing := none,
        food := none } 9).isErr = true ∧
    (submitRoundAnswers stateCancelled "host"
      { name := none, animal := none, place := none, thing := none,
        food := none } 9).isErr = true ∧
    (endRoundManually stateCancelled "host" 9).isErr = true ∧
    (endActiveRound stateCancelled .TIMER 9).isErr = true ∧
    (finalizeRoundWithForcedSubmissions stateCancelled .TIMER 9).isErr =
      true ∧
    (scoreRoundSubmission stateCancelled "tok" 1 "p1" fullMarksInput
      9).isErr = true ∧
    (publishRoundScores stateCancelled "tok" 1 9).isErr = true ∧
    (discardRoundScores stateCancelled "tok" 1 9).isErr = true ∧
    (cancelGame stateCancelled "tok" 9).isErr = true ∧
    (endGame stateCancelled "tok" 9).isErr = true := by
  have h := terminal_absorbing stateCancelled (Or.inl (by decide)) "p2"
    "Eve" "p1" true "tok" none "host" 5
    { name := none, animal := none, place := none, thing := none,
      food := none } .TIMER 1 fullMarksInput 9
  exact ⟨Or.inl (by decide), h.1, h.2.1, h.2.2.1, h.2.2.2.1, h.2.2.2.2.1,
    h.2.2.2.2.2.1, h.2.2.2.2.2.2.1, h.2.2.2.2.2.2.2.1,
    h.2.2.2.2.2.2.2.2.1, h.2.2.2.2.2.2.2.2.2.1,
    h.2.2.2.2.2.2.2.2.2.2.1, h.2.2.2.2.2.2.2.2.2.2.2.1,
    h.2.2.2.2.2.2.2.2.2.2.2.2.1, h.2.2.2.2.2.2.2.2.2.2.2.2.2⟩

/-! ## C7: turn rotation -/

/-- C7: whenever a round ends, the turn index advances to
`(previous + 1) mod |turnOrder|`, the active round is cleared, and the
ended round (the active round stamped with the end reason) is appended
to the completed rounds. -/
theorem turn_rotation (state : StoredRoomState) (reason : RoundEndReason)
    (now : Time) (ar : ActiveRoundState)
    (hst : state.game.status = .IN_PROGRESS)
    (har : state.game.activeRound = some ar)
    (hne : state.game.turnOrder ≠ [])
    (hlen : state.game.completedRounds.length < MAX_COMPLETED_ROUNDS) :
    ∃ r : EndRoundOk, endActiveRound state reason now = .ok r ∧
      r.nextState.game.currentTurnIndex =
        (state.game.currentTurnIndex + 1) % state.game.turnOrder.length ∧
      r.nextState.game.activeRound = none ∧
      r.nextState.game.completedRounds =
        state.game.completedRounds ++ [r.completedRound] ∧
      r.completedRound.endReason = reason ∧
      r.completedRound.toActiveRoundState = ar := by
  unfold endActiveRound
  rw [if_neg (by simp [hst]), har]
  refine ⟨_, rfl, ?_, rfl, ?_, rfl, rfl⟩
  · have hz : state.game.turnOrder.length ≠ 0 := by
      simpa [List.length_eq_zero] using hne
    simp [hz]
  · have hz : state.game.completedRounds.length + 1 - MAX_COMPLETED_ROUNDS =
        0 := by
      unfold MAX_COMPLETED_ROUNDS at hlen ⊢
      omega
    simp [takeLast, hz]

/-! ## Lemmas about trimming and whitespace-collapsing -/

theorem dropWhile_head_not (p : α → Bool) (l : List α) :
    ∀ c ∈ (l.dropWhile p).head?, p c = false := by
  induction l with
  | nil => intro c hc; simp at hc
  | cons x xs ih =>
    intro c hc
    by_cases hx : p x
    · rw [List.dropWhile_cons, if_pos hx] at hc
      exact ih c hc
    · rw [List.dropWhile_cons, if_neg hx] at hc
      simp only [List.head?_cons, Option.mem_def, Option.some.injEq] at hc
      rw [← hc]
      exact Bool.eq_false_iff.mpr hx

theorem getLast?_cons_of_ne_nil {x : α} {xs : List α} (h : xs ≠ []) :
    (x :: xs).getLast? = xs.getLast? := by
  cases xs with
  | nil => exact absurd rfl h
  | cons y ys => exact List.getLast?_cons_cons

theorem mem_of_getLast?_eq_some {l : List α} {c : α}
    (h : l.getLast? = some c) : c ∈ l := by
  rcases List.mem_getLast?_eq_getLast (show c ∈ l.getLast? by
    rw [h]; rfl) with ⟨hne, rfl⟩
  exact List.getLast_mem hne

theorem dropWhile_getLast? (p : α → Bool) (l : List α)
    (h : l.dropWhile p ≠ []) : (l.dropWhile p).getLast? = l.getLast? := by
  induction l with
  | nil => simp at h
  | cons x xs ih =>
    by_cases hx : p x
    · rw [List.dropWhile_cons, if_pos hx] at h ⊢
      rw [ih h, getLast?_cons_of_ne_nil]
      intro hnil
      rw [hnil] at h
      simp at h
    · rw [List.dropWhile_cons, if_neg hx]

theorem trimChars_head_not (l : List Char) :
    ∀ c ∈ (trimChars l).head?, c.isWhitespace = false := by
  intro c hc
  unfold trimChars at hc
  rw [List.head?_reverse] at hc
  by_cases hnil : (l.dropWhile Char.isWhitespace).reverse.dropWhile
      Char.isWhitespace = []
  · rw [hnil] at hc
    simp at hc
  · rw [dropWhile_getLast? _ _ hnil, List.getLast?_reverse] at hc
    exact dropWhile_head_not _ _ c hc

theorem trimChars_getLast_not (l : List Char) :
    ∀ c ∈ (trimChars l).getLast?, c.isWhitespace = false := by
  intro c hc
  unfold trimChars at hc
  rw [List.getLast?_reverse] at hc
  exact dropWhile_head_not _ _ c hc

/-- Count of non-whitespace characters. -/
theorem countP_dropWhile_not (p q : α → Bool)
    (hpq : ∀ c, p c = true → q c = false) (l : List α) :
    (l.dropWhile p).countP q = l.countP q := by
  induction l with
  | nil => rfl
  | cons x xs ih =>
    by_cases hx : p x
    · rw [List.dropWhile_cons, if_pos hx, ih, List.countP_cons,
        hpq x hx]
      simp
    · rw [List.dropWhile_cons, if_neg hx]

theorem countP_trimChars (q : Char → Bool)
    (hq : ∀ c, c.isWhitespace = true → q c = false) (l : List Char) :
    (trimChars l).countP q = l.countP q := by
  unfold trimChars
  rw [(List.reverse_perm _).countP_eq,
    countP_dropWhile_not _ _ hq,
    (List.reverse_perm _).countP_eq,
    countP_dropWhile_not _ _ hq]

theorem countP_collapseWsAux (q : Char → Bool)
    (hq : ∀ c, c.isWhitespace = true → q c = false) :
    ∀ (l : List Char) (b : Bool),
      (collapseWsAux b l).countP q = l.countP q := by
  intro l
  induction l with
  | nil => intro b; rfl
  | cons x xs ih =>
    intro b
    by_cases hx : x.isWhitespace
    · cases b with
      | true =>
        rw [collapseWsAux, if_pos hx, if_pos rfl, ih, List.countP_cons,
          hq x hx]
        simp
      | false =>
        rw [collapseWsAux, if_pos hx]
        simp only [Bool.false_eq_true, if_false]
        rw [List.countP_cons, List.countP_cons, ih, hq x hx,
          hq ' ' (by decide)]
    · rw [collapseWsAux, if_neg hx, List.countP_cons, List.countP_cons,
        ih]

theorem collapseWsAux_ne_nil (l : List Char) (b : Bool)
    (h : 0 < l.countP (fun c => !c.isWhitespace)) :
    collapseWsAux b l ≠ [] := by
  intro hnil
  have := countP_collapseWsAux (fun c => !c.isWhitespace)
    (fun c hc => by simp [hc]) l b
  rw [hnil] at this
  simp only [List.countP_nil] at this
  omega

theorem collapseWsAux_ws_space :
    ∀ (l : List Char) (b : Bool) (c : Char),
      c ∈ collapseWsAux b l → c.isWhitespace = true → c = ' ' := by
  intro l
  induction l with
  | nil => intro b c hc; simp [collapseWsAux] at hc
  | cons x xs ih =>
    intro b c hc hcw
    by_cases hx : x.isWhitespace
    · cases b with
      | true =>
        rw [collapseWsAux, if_pos hx, if_pos rfl] at hc
        exact ih _ c hc hcw
      | false =>
        rw [collapseWsAux, if_pos hx] at hc
        simp only [Bool.false_eq_true, if_false] at hc
        rcases List.mem_cons.mp hc with hc | hc
        · exact hc
        · exact ih _ c hc hcw
    · rw [collapseWsAux, if_neg hx] at hc
      rcases List.mem_cons.mp hc with hc | hc
      · rw [hc] at hcw
        exact absurd hcw (by simpa using hx)
      · exact ih _ c hc hcw

theorem collapseWsAux_head_true (l : List Char) :
    ∀ c ∈ (collapseWsAux true l).head?, c.isWhitespace = false := by
  induction l with
  | nil => intro c hc; simp [collapseWsAux] at hc
  | cons x xs ih =>
    intro c hc
    by_cases hx : x.isWhitespace
    · rw [collapseWsAux, if_pos hx, if_pos rfl] at hc
      exact ih c hc
    · rw [collapseWsAux, if_neg hx] at hc
      simp only [List.head?_cons, Option.mem_def, Option.some.injEq] at hc
      rw [← hc]
      simpa using hx

theorem collapseWsAux_chain (l : List Char) (b : Bool) :
    List.Chain' (fun a c => ¬(a.isWhitespace ∧ c.isWhitespace))
      (collapseWsAux b l) := by
  induction l generalizing b with
  | nil => simp [collapseWsAux]
  | cons x xs ih =>
    by_cases hx : x.isWhitespace
    · cases b with
      | true =>
        rw [collapseWsAux, if_pos hx, if_pos rfl]
        exact ih _
      | false =>
        rw [collapseWsAux, if_pos hx]
        simp only [Bool.false_eq_true, if_false]
        apply List.chain'_cons'.mpr
        refine ⟨?_, ih _⟩
        intro y hy
        have := collapseWsAux_head_true xs y hy
        simp [this]
    · rw [collapseWsAux, if_neg hx]
      apply List.chain'_cons'.mpr
      refine ⟨?_, ih _⟩
      intro y _
      simp [hx]

theorem collapseWsAux_getLast_not :
    ∀ (l : List Char) (b : Bool),
      (∀ c ∈ l.getLast?, c.isWhitespace = false) →
      ∀ c ∈ (collapseWsAux b l).getLast?, c.isWhitespace = false := by
  intro l
  induction l with
  | nil => intro b _ c hc; simp [collapseWsAux] at hc
  | cons x xs ih =>
    intro b hlast c hc
    cases hxs : xs with
    | nil =>
      subst hxs
      have hx : x.isWhitespace = false := by
        have := hlast x (by simp)
        exact this
      rw [collapseWsAux, if_neg (by simp [hx])] at hc
      simp only [collapseWsAux] at hc
      simp only [List.getLast?_singleton, Option.mem_def,
        Option.some.injEq] at hc
      rw [← hc]
      exact hx
    | cons y ys =>
      subst hxs
      have hlast2 : ∀ c ∈ (y :: ys).getLast?, c.isWhitespace = false := by
        intro c hc2
        apply hlast
        rw [List.getLast?_cons_cons]
        exact hc2
      have hnonws : 0 < (y :: ys).countP (fun c => !c.isWhitespace) := by
        have hex : ∃ c ∈ (y :: ys), (fun c => !c.isWhitespace) c = true := by
          cases hgl : (y :: ys).getLast? with
          | none => simp at hgl
          | some c =>
            refine ⟨c, ?_, by simp [hlast2 c (by rw [hgl]; rfl)]⟩
            exact mem_of_getLast?_eq_some hgl
        exact List.countP_pos_iff.mpr (by simpa using hex)
      by_cases hx : x.isWhitespace
      · cases b with
        | true =>
          rw [collapseWsAux, if_pos hx, if_pos rfl] at hc
          exact ih _ hlast2 c hc
        | false =>
          rw [collapseWsAux, if_pos hx] at hc
          simp only [Bool.false_eq_true, if_false] at hc
          rw [getLast?_cons_of_ne_nil
            (collapseWsAux_ne_nil _ _ hnonws)] at hc
          exact ih _ hlast2 c hc
      · rw [collapseWsAux, if_neg hx] at hc
        rw [getLast?_cons_of_ne_nil
          (collapseWsAux_ne_nil _ _ hnonws)] at hc
        exact ih _ hlast2 c hc

/-- Normalised names are trimmed and whitespace-collapsed. -/
theorem isTrimmedCollapsed_normalizeName (s : String) :
    isTrimmedCollapsed (normalizeName s) := by
  unfold isTrimmedCollapsed normalizeName collapseWs
  refine ⟨?_, ?_, ?_, ?_⟩
  · intro c hc
    cases ht : trimChars s.data with
    | nil =>
      rw [ht] at hc
      simp [collapseWsAux] at hc
    | cons x xs =>
      have hx : x.isWhitespace = false := by
        have := trimChars_head_not s.data x
        rw [ht] at this
        exact this (by simp)
      rw [ht, collapseWsAux, if_neg (by simp [hx])] at hc
      simp only [List.head?_cons, Option.mem_def, Option.some.injEq] at hc
      rw [← hc]
      simp [hx]
  · intro c hc
    have := collapseWsAux_getLast_not (trimChars s.data) false
      (trimChars_getLast_not s.data) c hc
    simp [this]
  · exact collapseWsAux_chain _ _
  · intro c hc hcw
    exact collapseWsAux_ws_space _ _ c hc hcw

/-- A trimmed string of length at least 2 has at least two
non-whitespace characters, so its collapse keeps length at least 2. -/
theorem normalizeName_trimString_length (raw : String)
    (h : 2 ≤ (trimString raw).length) :
    2 ≤ (normalizeName (trimString raw)).length := by
  have hdata : (trimString raw).data = trimChars raw.data := rfl
  have hlen : 2 ≤ (trimChars raw.data).length := by
    simpa [String.length, hdata] using h
  have hcnt : 2 ≤ (trimChars raw.data).countP
      (fun c => !c.isWhitespace) := by
    cases ht : trimChars raw.data with
    | nil => rw [ht] at hlen; simp at hlen
    | cons x xs =>
      have hx : x.isWhitespace = false := by
        have := trimChars_head_not raw.data x
        rw [ht] at this
        exact this (by simp)
      have hxs : xs ≠ [] := by
        intro hnil
        rw [ht, hnil] at hlen
        simp at hlen
      have hlastmem : ∃ c ∈ xs, (fun c => !c.isWhitespace) c = true := by
        cases hgl : xs.getLast? with
        | none => exact absurd (List.getLast?_eq_none_iff.mp hgl) hxs
        | some c =>
          have hcw : c.isWhitespace = false := by
            have := trimChars_getLast_not raw.data c
            rw [ht, getLast?_cons_of_ne_nil hxs] at this
            exact this (by rw [hgl]; rfl)
          exact ⟨c, mem_of_getLast?_eq_some hgl, by simp [hcw]⟩
      have hpos : 0 < xs.countP (fun c => !c.isWhitespace) :=
        List.countP_pos_iff.mpr (by simpa using hlastmem)
      rw [List.countP_cons]
      have hxq : (fun c => !c.isWhitespace) x = true := by simp [hx]
      rw [ht] at *
      simp only [hxq, if_pos]
      omega
  have hcoll : (normalizeName (trimString raw)).data =
      collapseWsAux false (trimChars (trimChars raw.data)) := rfl
  have htt : (trimChars (trimChars raw.data)).countP
      (fun c => !c.isWhitespace) =
      (trimChars raw.data).countP (fun c => !c.isWhitespace) :=
    countP_trimChars _ (fun c hc => by simp [hc]) _
  calc 2 ≤ (trimChars raw.data).countP (fun c => !c.isWhitespace) := hcnt
    _ = (collapseWsAux false
          (trimChars (trimChars raw.data))).countP
          (fun c => !c.isWhitespace) := by
        rw [countP_collapseWsAux _ (fun c hc => by simp [hc]), htt]
    _ ≤ (normalizeName (trimString raw)).length := by
        rw [show (normalizeName (trimString raw)).length =
          (collapseWsAux false (trimChars (trimChars raw.data))).length
          from rfl]
        exact List.countP_le_length _

/-! ## C6: leaderboard monotonicity and consistency -/

theorem leaderboardLe_total (a b : ParticipantScoreSummary) :
    leaderboardLe a b = true ∨ leaderboardLe b a = true := by
  unfold leaderboardLe
  by_cases h : a.totalScore = b.totalScore
  · rw [if_pos h, if_pos h.symm]
    exact strLe_total _ _
  · rw [if_neg h, if_neg (fun hc => h hc.symm)]
    rcases lt_or_gt_of_ne h with hlt | hlt
    · right; simpa using hlt
    · left; simpa using hlt

theorem leaderboardLe_trans (a b c : ParticipantScoreSummary)
    (h1 : leaderboardLe a b = true) (h2 : leaderboardLe b c = true) :
    leaderboardLe a c = true := by
  unfold leaderboardLe at *
  by_cases hab : a.totalScore = b.totalScore
  · rw [if_pos hab] at h1
    by_cases hbc : b.totalScore = c.totalScore
    · rw [if_pos hbc] at h2
      rw [if_pos (hab.trans hbc)]
      exact strLe_trans h1 h2
    · rw [if_neg hbc] at h2
      have hlt : c.totalScore < b.totalScore := by simpa using h2
      rw [if_neg (fun hc => hbc (hab.symm.trans hc))]
      simpa [hab] using hlt
  · rw [if_neg hab] at h1
    have hlt1 : b.totalScore < a.totalScore := by simpa using h1
    by_cases hbc : b.totalScore = c.totalScore
    · rw [if_neg (fun hc => hab (hc.trans hbc.symm))]
      simpa [← hbc] using hlt1
    · rw [if_neg hbc] at h2
      have hlt2 : c.totalScore < b.totalScore := by simpa using h2
      have hlt : c.totalScore < a.totalScore := hlt2.trans hlt1
      rw [if_neg (fun hc => absurd (hc ▸ hlt) (lt_irrefl _))]
      simpa using hlt

theorem leaderboardLe_eq_true_iff (a b : ParticipantScoreSummary) :
    leaderboardLe a b = true ↔
      (b.totalScore < a.totalScore ∨
        (a.totalScore = b.totalScore ∧
          strLe a.participantName b.participantName = true)) := by
  unfold leaderboardLe
  by_cases h : a.totalScore = b.totalScore
  · rw [if_pos h]
    constructor
    · intro hs; exact Or.inr ⟨h, hs⟩
    · rintro (hlt | ⟨_, hs⟩)
      · rw [h] at hlt; exact absurd hlt (lt_irrefl _)
      · exact hs
  · rw [if_neg h]
    simp only [decide_eq_true_eq]
    constructor
    · exact Or.inl
    · rintro (hlt | ⟨heq, _⟩)
      · exact hlt
      · exact absurd heq h

/-- Structure of the history loop: the cumulative scores form a chain
from the initial total, the last one is the final running total, and
every entry names a round of the walked list. -/
theorem leaderboardHistory_spec (pid : String) :
    ∀ (rounds : List CompletedRoundState) (t0 : ℚ) (rv0 : Nat),
      (∀ r ∈ rounds, 0 ≤ (match submissionForParticipant r pid with
        | some s => roundScoreFromReview s.review
        | none => 0)) →
      List.Chain' (fun x y => x.cumulativeScore ≤ y.cumulativeScore)
        (leaderboardHistory pid rounds t0 rv0).1 ∧
      (∀ e ∈ (leaderboardHistory pid rounds t0 rv0).1,
        t0 ≤ e.cumulativeScore) ∧
      (((leaderboardHistory pid rounds t0 rv0).1.getLast?.map
          (·.cumulativeScore)).getD t0 =
        (leaderboardHistory pid rounds t0 rv0).2.1) ∧
      (∀ e ∈ (leaderboardHistory pid rounds t0 rv0).1,
        ∃ r ∈ rounds, e.roundNumber = r.roundNumber ∧
          e.calledNumber = r.calledNumber) := by
  intro rounds
  induction rounds with
  | nil =>
    intro t0 rv0 _
    refine ⟨List.chain'_nil, ?_, rfl, ?_⟩ <;> simp [leaderboardHistory]
  | cons r rest ih =>
    intro t0 rv0 hpos
    have hsc : 0 ≤ (match submissionForParticipant r pid with
        | some s => roundScoreFromReview s.review
        | none => 0) :=
      hpos r (List.mem_cons_self _ _)
    obtain ⟨ih1, ih2, ih3, ih4⟩ :=
      ih (t0 + (match submissionForParticipant r pid with
        | some s => roundScoreFromReview s.review
        | none => 0))
        (if (match submissionForParticipant r pid with
          | some s => s.review.isSome
          | none => false) = true then rv0 + 1 else rv0)
        (fun r2 hr2 => hpos r2 (List.mem_cons_of_mem _ hr2))
    simp only [leaderboardHistory]
    refine ⟨?_, ?_, ?_, ?_⟩
    · apply List.chain'_cons'.mpr
      refine ⟨?_, ih1⟩
      intro y hy
      have hymem := List.mem_of_mem_head? hy
      exact ih2 y hymem
    · intro e he
      rcases List.mem_cons.mp he with he | he
      · rw [he]
        exact le_add_of_nonneg_right hsc
      · exact le_trans (le_add_of_nonneg_right hsc) (ih2 e he)
    · cases htail : (leaderboardHistory pid rest
          (t0 + (match submissionForParticipant r pid with
            | some s => roundScoreFromReview s.review
            | none => 0))
          (if (match submissionForParticipant r pid with
            | some s => s.review.isSome
            | none => false) = true then rv0 + 1 else rv0)).1 with
      | nil =>
        rw [htail] at ih3
        simpa [htail] using ih3
      | cons x xs =>
        rw [htail] at ih3
        simpa [htail, List.getLast?_cons_cons] using ih3
    · intro e he
      rcases List.mem_cons.mp he with he | he
      · exact ⟨r, List.mem_cons_self _ _, by rw [he], by rw [he]⟩
      · obtain ⟨r2, hr2, hrn, hcn⟩ := ih4 e he
        exact ⟨r2, List.mem_cons_of_mem _ hr2, hrn, hcn⟩

/-- C6: every leaderboard entry has a non-decreasing cumulative history
whose final value is its `totalScore` (0 for an empty history), the
history covers only published completed rounds, and the leaderboard is
sorted by `totalScore` descending with ties broken by name ascending.
Stored review totals are non-negative in every state the program
produces (`hpos`). -/
theorem leaderboard_props (state : StoredRoomState)
    (hpos : ∀ r ∈ state.game.completedRounds, ∀ s ∈ r.submissions,
      ∀ rev, s.review = some rev → 0 ≤ rev.scores.total)
    (entry : ParticipantScoreSummary)
    (hentry : entry ∈ (buildScoringSummary state).leaderboard) :
    List.Chain' (fun x y => x.cumulativeScore ≤ y.cumulativeScore)
      entry.history ∧
    ((entry.history.getLast?.map (·.cumulativeScore)).getD 0 =
      entry.totalScore) ∧
    (∀ e ∈ entry.history, ∃ r ∈ state.game.completedRounds,
      r.scorePublishedAt ≠ none ∧ e.roundNumber = r.roundNumber ∧
      e.calledNumber = r.calledNumber) ∧
    (buildScoringSummary state).leaderboard.Pairwise
      (fun a b => b.totalScore < a.totalScore ∨
        (a.totalScore = b.totalScore ∧
          strLe a.participantName b.participantName = true)) := by
  unfold buildScoringSummary at hentry
  dsimp only at hentry
  rw [sortByLe_mem] at hentry
  obtain ⟨p, hp, hpe⟩ := List.mem_map.mp hentry
  have hpos2 : ∀ r ∈ state.game.completedRounds.filter
      (fun round => round.scorePublishedAt.isSome),
      (0 : ℚ) ≤ (match submissionForParticipant r p.id with
        | some s => roundScoreFromReview s.review
        | none => 0) := by
    intro r hr
    have hrc : r ∈ state.game.completedRounds := List.mem_of_mem_filter hr
    cases hsf : submissionForParticipant r p.id with
    | none => simp
    | some s =>
      have hsf2 : r.submissions.find?
          (fun s => s.participantId == p.id) = some s := hsf
      have hsmem : s ∈ r.submissions := List.mem_of_find?_eq_some hsf2
      cases hrev : s.review with
      | none => simp [roundScoreFromReview, hrev]
      | some rev =>
        simpa [roundScoreFromReview, hrev] using hpos r hrc s hsmem rev hrev
  obtain ⟨hc1, hc2, hc3, hc4⟩ := leaderboardHistory_spec p.id
    (state.game.completedRounds.filter
      (fun round => round.scorePublishedAt.isSome)) 0 0 hpos2
  rw [← hpe]
  unfold participantSummary
  dsimp only
  refine ⟨hc1, hc3, ?_, ?_⟩
  · intro e he
    obtain ⟨r, hr, hrn, hcn⟩ := hc4 e he
    refine ⟨r, List.mem_of_mem_filter hr, ?_, hrn, hcn⟩
    have := List.of_mem_filter hr
    simpa [Option.isSome_iff_ne_none] using this
  · unfold buildScoringSummary
    dsimp only
    exact List.Pairwise.imp
      (fun h => (leaderboardLe_eq_true_iff _ _).mp h)
      (sortByLe_pairwise leaderboardLe leaderboardLe_trans
        leaderboardLe_total _)

/-- Witness for the leaderboard theorem at a one-player lobby, whose
leaderboard is the single summary of the host. -/
theorem leaderboard_props_witness :
    (∀ r ∈ soloState.game.completedRounds, ∀ s ∈ r.submissions,
      ∀ rev, s.review = some rev → 0 ≤ rev.scores.total) ∧
    soloSummary ∈ (buildScoringSummary soloState).leaderboard ∧
    (List.Chain' (fun x y => x.cumulativeScore ≤ y.cumulativeScore)
      soloSummary.history ∧
    ((soloSummary.history.getLast?.map (·.cumulativeScore)).getD 0 =
      soloSummary.totalScore) ∧
    (∀ e ∈ soloSummary.history, ∃ r ∈ soloState.game.completedRounds,
      r.scorePublishedAt ≠ none ∧ e.roundNumber = r.roundNumber ∧
      e.calledNumber = r.calledNumber) ∧
    (buildScoringSummary soloState).leaderboard.Pairwise
      (fun a b => b.totalScore < a.totalScore ∨
        (a.totalScore = b.totalScore ∧
          strLe a.participantName b.participantName = true))) := by
  have hpos : ∀ r ∈ soloState.game.completedRounds, ∀ s ∈ r.submissions,
      ∀ rev, s.review = some rev → 0 ≤ rev.scores.total := by
    intro r hr
    simp [soloState, cexS0, initializeRoomState] at hr
  have hmem : soloSummary ∈ (buildScoringSummary soloState).leaderboard := by
    exact List.Mem.head _
  exact ⟨hpos, hmem, leaderboard_props soloState hpos soloSummary hmem⟩

/-! ## C2: fair-round ceiling -/

/-- C2: with `maxFairRounds = ⌊26 / |turnOrder|⌋ * |turnOrder|` (the
claim defines `admittedCount = |turnOrder|`; the hypothesis `hadm` ties
the code's admitted count to it), once `completedRounds.length` reaches
`maxFairRounds` every call fails with a 409 Conflict, for every
participant and every number; below the ceiling a call is never refused
on the `MaxRoundsReached` ground. A failure carries no next state, so
the state is unchanged. -/
theorem fair_round_ceiling (state : StoredRoomState)
    (participantId : String) (n : Int) (now : Time)
    (hst : state.game.status = .IN_PROGRESS)
    (hadm : (admittedParticipants state).length =
      state.game.turnOrder.length)
    (hpos : 0 < state.game.turnOrder.length)
    (hle : state.game.turnOrder.length ≤ 26) :
    (26 / state.game.turnOrder.length * state.game.turnOrder.length ≤
        state.game.completedRounds.length →
      (callNumberForTurn state participantId n now).isErr = true ∧
      (callNumberForTurn state participantId n now).errStatus? =
        some 409) ∧
    (state.game.completedRounds.length <
        26 / state.game.turnOrder.length * state.game.turnOrder.length →
      (callNumberForTurn state participantId n now).errMsg? ≠
        some "maximum fair rounds reached") := by
  have hcan : isGameCancelled state = false := by
    simp [isGameCancelled, hst]
  have hmax : (scoringLimits state).maxRounds =
      26 / state.game.turnOrder.length * state.game.turnOrder.length := by
    simp [scoringLimits, hadm, hpos]
  have hmaxpos :
      0 < 26 / state.game.turnOrder.length * state.game.turnOrder.length :=
    Nat.mul_pos (Nat.div_pos hle hpos) hpos
  unfold callNumberForTurn
  rw [hcan]
  rw [if_neg (by simp)]
  rw [if_neg (by simp [hst])]
  by_cases har : state.game.activeRound.isSome
  · rw [if_pos har]
    exact ⟨fun _ => ⟨rfl, rfl⟩, fun _ => by simp [MutationResult.errMsg?]⟩
  · rw [if_neg har]
    by_cases hunp : state.game.completedRounds.any
        (fun round => !round.scorePublishedAt.isSome)
    · rw [if_pos hunp]
      exact ⟨fun _ => ⟨rfl, rfl⟩, fun _ => by simp [MutationResult.errMsg?]⟩
    · rw [if_neg hunp]
      constructor
      · intro hge
        rw [if_pos (by rw [hmax]; exact ⟨hmaxpos, hge⟩)]
        exact ⟨rfl, rfl⟩
      · intro hlt
        rw [if_neg (by rw [hmax]; intro hcontra; omega)]
        split_ifs <;> try decide
        all_goals (split <;> try decide)
        all_goals (split_ifs <;> try decide)
        all_goals (split <;> try decide)
        all_goals simp [MutationResult.errMsg?]

/-- Witness for the fair-round ceiling at a 14-player room that has
played all `⌊26/14⌋ * 14 = 14` fair rounds. -/
theorem fair_round_ceiling_witness :
    ceilingState.game.status = .IN_PROGRESS ∧
    (admittedParticipants ceilingState).length =
      ceilingState.game.turnOrder.length ∧
    0 < ceilingState.game.turnOrder.length ∧
    ceilingState.game.turnOrder.length ≤ 26 ∧
    (26 / ceilingState.game.turnOrder.length *
        ceilingState.game.turnOrder.length ≤
        ceilingState.game.completedRounds.length →
      (callNumberForTurn ceilingState "a" 20 50).isErr = true ∧
      (callNumberForTurn ceilingState "a" 20 50).errStatus? = some 409) ∧
    (ceilingState.game.completedRounds.length <
        26 / ceilingState.game.turnOrder.length *
          ceilingState.game.turnOrder.length →
      (callNumberForTurn ceilingState "a" 20 50).errMsg? ≠
        some "maximum fair rounds reached") := by
  have h := fair_round_ceiling ceilingState "a" 20 50 (by decide) (by decide)
    (by decide) (by decide)
  exact ⟨by decide, by decide, by decide, by decide, h.1, h.2⟩

/-- Witness for the turn-rotation theorem at a concrete in-progress
room with two players and an open round. -/
theorem turn_rotation_witness :
    exampleInProgress.game.status = .IN_PROGRESS ∧
    exampleInProgress.game.activeRound = some exampleActiveRound ∧
    exampleInProgress.game.turnOrder ≠ [] ∧
    exampleInProgress.game.completedRounds.length < MAX_COMPLETED_ROUNDS ∧
    (∃ r : EndRoundOk,
      endActiveRound exampleInProgress .MANUAL_END 100 = .ok r ∧
      r.nextState.game.currentTurnIndex =
        (exampleInProgress.game.currentTurnIndex + 1) %
          exampleInProgress.game.turnOrder.length ∧
      r.nextState.game.activeRound = none ∧
      r.nextState.game.completedRounds =
        exampleInProgress.game.completedRounds ++ [r.completedRound] ∧
      r.completedRound.endReason = .MANUAL_END ∧
      r.completedRound.toActiveRoundState = exampleActiveRound) :=
  ⟨rfl, rfl, by decide, by decide,
    turn_rotation exampleInProgress .MANUAL_END 100 exampleActiveRound rfl rfl
      (by decide) (by decide)⟩

/-! ## Shape of each successful transition (for the reachability
invariant) -/

theorem handleCreateRoom_ok (raw : String) (mp : Int) (code tok : String)
    (payload : RoomInitPayload)
    (h : handleCreateRoom raw mp code tok = .ok payload) :
    payload.hostName = trimString raw ∧ 2 ≤ (trimString raw).length := by
  unfold handleCreateRoom at h
  dsimp only at h
  split at h <;> try exact MutationResult.noConfusion h
  rename_i h1
  split at h <;> try exact MutationResult.noConfusion h
  injection h with h; subst h
  exact ⟨rfl, by omega⟩

theorem createJoinRequest_ok (s : StoredRoomState) (nid raw : String)
    (now : Time) (r : JoinOk) (h : createJoinRequest s nid raw now = .ok r) :
    r.nextState.participants = s.participants ++ [r.participant] ∧
    r.nextState.game = s.game ∧
    r.participant.name = normalizeName raw ∧
    r.participant.isHost = false ∧
    2 ≤ (normalizeName raw).length ∧ (normalizeName raw).length ≤ 24 := by
  unfold createJoinRequest at h
  dsimp only at h
  split at h <;> try exact MutationResult.noConfusion h
  split at h <;> try exact MutationResult.noConfusion h
  rename_i h2
  split at h <;> try exact MutationResult.noConfusion h
  split at h <;> try exact MutationResult.noConfusion h
  injection h with h; subst h
  refine ⟨rfl, rfl, rfl, rfl, ?_, ?_⟩ <;>
    (unfold MIN_NAME_LENGTH MAX_NAME_LENGTH at h2; omega)

theorem resolveJoinRequest_ok (s : StoredRoomState) (rid : String)
    (approve : Bool) (now : Time) (r : AdmitOk)
    (h : resolveJoinRequest s rid approve now = .ok r) :
    r.nextState.game = s.game ∧
    ∀ q ∈ r.nextState.participants, ∃ q0 ∈ s.participants,
      q.name = q0.name ∧ q.isHost = q0.isHost := by
  unfold resolveJoinRequest at h
  split at h <;> try exact MutationResult.noConfusion h
  split at h <;> try exact MutationResult.noConfusion h
  split at h <;> try exact MutationResult.noConfusion h
  rename_i current hfind
  split at h <;> try exact MutationResult.noConfusion h
  split at h <;> try exact MutationResult.noConfusion h
  dsimp only at h
  injection h with h; subst h
  refine ⟨rfl, ?_⟩
  intro q hq
  obtain ⟨p0, hp0, hpe⟩ := List.mem_map.mp hq
  by_cases hid : (p0.id == rid) = true
  · rw [if_pos hid] at hpe
    exact ⟨current, List.mem_of_find?_eq_some hfind,
      by rw [← hpe], by rw [← hpe]⟩
  · rw [if_neg hid] at hpe
    exact ⟨p0, hp0, by rw [← hpe], by rw [← hpe]⟩

theorem startGame_ok (s : StoredRoomState) (tok : String)
    (cfg : Option StartGameInput) (now : Time) (r : StartOk)
    (h : startGame s tok cfg now = .ok r) :
    r.nextState.participants = admittedParticipants s ∧
    r.nextState.game.status = .IN_PROGRESS ∧
    r.nextState.game.turnOrder = buildTurnOrder s ∧
    2 ≤ (buildTurnOrder s).length ∧
    r.nextState.game.currentTurnIndex = 0 := by
  unfold startGame at h
  dsimp only at h
  split at h <;> try exact MutationResult.noConfusion h
  split at h <;> try exact MutationResult.noConfusion h
  split at h <;> try exact MutationResult.noConfusion h
  split at h <;> try exact MutationResult.noConfusion h
  split at h <;> try exact MutationResult.noConfusion h
  rename_i h5
  split at h <;> try exact MutationResult.noConfusion h
  split at h <;> try exact MutationResult.noConfusion h
  injection h with h; subst h
  exact ⟨rfl, rfl, rfl, by omega, rfl⟩

theorem callNumberForTurn_ok (s : StoredRoomState) (pid : String) (n : Int)
    (now : Time) (r : CallOk) (h : callNumberForTurn s pid n now = .ok r) :
    r.nextState.participants = s.participants ∧
    r.nextState.game.status = s.game.status ∧
    r.nextState.game.turnOrder = s.game.turnOrder ∧
    r.nextState.game.currentTurnIndex = s.game.currentTurnIndex := by
  unfold callNumberForTurn at h
  by_cases c1 : isGameCancelled s = true
  · rw [if_pos c1] at h; exact MutationResult.noConfusion h
  rw [if_neg c1] at h
  by_cases c2 : ¬(s.game.status = GameStatus.IN_PROGRESS)
  · rw [if_pos c2] at h; exact MutationResult.noConfusion h
  rw [if_neg c2] at h
  by_cases c3 : s.game.activeRound.isSome = true
  · rw [if_pos c3] at h; exact MutationResult.noConfusion h
  rw [if_neg c3] at h
  by_cases c4 : (s.game.completedRounds.any
      fun round => !round.scorePublishedAt.isSome) = true
  · rw [if_pos c4] at h; exact MutationResult.noConfusion h
  rw [if_neg c4] at h
  lift_lets at h
  extract_lets at h
  split at h <;> try exact MutationResult.noConfusion h
  split at h <;> try exact MutationResult.noConfusion h
  split at h <;> try exact MutationResult.noConfusion h
  split at h <;> try exact MutationResult.noConfusion h
  split at h <;> try exact MutationResult.noConfusion h
  split at h <;> try exact MutationResult.noConfusion h
  split at h <;> try exact MutationResult.noConfusion h
  try lift_lets at h
  try extract_lets at h
  injection h with h; subst h
  exact ⟨rfl, rfl, rfl, rfl⟩

theorem updateRoundDraft_ok (s : StoredRoomState) (pid : String)
    (ans : PartialRoundAnswers) (now : Time) (r : StateOnlyOk)
    (h : updateRoundDraft s pid ans now = .ok r) :
    r.nextState.participants = s.participants ∧
    r.nextState.game.status = s.game.status ∧
    r.nextState.game.turnOrder = s.game.turnOrder ∧
    r.nextState.game.currentTurnIndex = s.game.currentTurnIndex := by
  unfold updateRoundDraft at h
  split at h <;> try exact MutationResult.noConfusion h
  split at h <;> try exact MutationResult.noConfusion h
  split at h <;> try exact MutationResult.noConfusion h
  split at h <;> try exact MutationResult.noConfusion h
  split at h <;> try exact MutationResult.noConfusion h
  split at h <;> try exact MutationResult.noConfusion h
  dsimp only at h
  injection h with h; subst h
  exact ⟨rfl, rfl, rfl, rfl⟩

theorem withForcedSubmissions_some (s : StoredRoomState) (now : Time)
    (st : StoredRoomState) (h : withForcedSubmissions s now = some st) :
    st.participants = s.participants ∧
    st.game.status = s.game.status ∧
    st.game.turnOrder = s.game.turnOrder ∧
    st.game.currentTurnIndex = s.game.currentTurnIndex := by
  unfold withForcedSubmissions at h
  split at h <;> try exact Option.noConfusion h
  dsimp only at h
  split at h
  · injection h with h; subst h; exact ⟨rfl, rfl, rfl, rfl⟩
  · injection h with h; subst h; exact ⟨rfl, rfl, rfl, rfl⟩

theorem endActiveRound_ok (s : StoredRoomState) (reason : RoundEndReason)
    (now : Time) (r : EndRoundOk) (h : endActiveRound s reason now = .ok r) :
    s.game.status = .IN_PROGRESS ∧
    r.nextState.participants = s.participants ∧
    r.nextState.game.status = s.game.status ∧
    r.nextState.game.turnOrder = s.game.turnOrder ∧
    r.nextState.game.currentTurnIndex =
      (if s.game.turnOrder.length = 0 then 0
       else (s.game.currentTurnIndex + 1) % s.game.turnOrder.length) := by
  unfold endActiveRound at h
  split at h <;> try exact MutationResult.noConfusion h
  rename_i h1
  split at h <;> try exact MutationResult.noConfusion h
  dsimp only at h
  injection h with h; subst h
  exact ⟨not_not.mp h1, rfl, rfl, rfl, rfl⟩

theorem finalizeRoundWithForcedSubmissions_ok (s : StoredRoomState)
    (reason : RoundEndReason) (now : Time) (r : EndRoundOk)
    (h : finalizeRoundWithForcedSubmissions s reason now = .ok r) :
    s.game.status = .IN_PROGRESS ∧
    r.nextState.participants = s.participants ∧
    r.nextState.game.status = s.game.status ∧
    r.nextState.game.turnOrder = s.game.turnOrder ∧
    r.nextState.game.currentTurnIndex =
      (if s.game.turnOrder.length = 0 then 0
       else (s.game.currentTurnIndex + 1) % s.game.turnOrder.length) := by
  unfold finalizeRoundWithForcedSubmissions at h
  split at h <;> try exact MutationResult.noConfusion h
  rename_i st hw
  obtain ⟨hp, hst, hto, hidx⟩ := withForcedSubmissions_some s now st hw
  obtain ⟨e1, e2, e3, e4, e5⟩ := endActiveRound_ok st reason now r h
  refine ⟨hst.symm.trans e1, e2.trans hp, e3.trans hst, e4.trans hto, ?_⟩
  rw [e5, hto, hidx]

theorem endRoundManually_ok (s : StoredRoomState) (pid : String)
    (now : Time) (r : EndRoundOk)
    (h : endRoundManually s pid now = .ok r) :
    s.game.status = .IN_PROGRESS ∧
    r.nextState.participants = s.participants ∧
    r.nextState.game.status = s.game.status ∧
    r.nextState.game.turnOrder = s.game.turnOrder ∧
    r.nextState.game.currentTurnIndex =
      (if s.game.turnOrder.length = 0 then 0
       else (s.game.currentTurnIndex + 1) % s.game.turnOrder.length) := by
  unfold endRoundManually at h
  split at h <;> try exact MutationResult.noConfusion h
  split at h <;> try exact MutationResult.noConfusion h
  split at h <;> try exact MutationResult.noConfusion h
  split at h <;> try exact MutationResult.noConfusion h
  split at h <;> try exact MutationResult.noConfusion h
  dsimp only at h
  split at h <;> try exact MutationResult.noConfusion h
  exact finalizeRoundWithForcedSubmissions_ok _ _ _ _ h

theorem submitRoundAnswers_ok (s : StoredRoomState) (pid : String)
    (ans : PartialRoundAnswers) (now : Time) (r : SubmitOk)
    (h : submitRoundAnswers s pid ans now = .ok r) :
    s.game.status = .IN_PROGRESS ∧
    r.nextState.participants = s.participants ∧
    r.nextState.game.status = s.game.status ∧
    r.nextState.game.turnOrder = s.game.turnOrder ∧
    (r.nextState.game.currentTurnIndex = s.game.currentTurnIndex ∨
      r.nextState.game.currentTurnIndex =
        (if s.game.turnOrder.length = 0 then 0
         else (s.game.currentTurnIndex + 1) % s.game.turnOrder.length)) := by
  unfold submitRoundAnswers at h
  split at h <;> try exact MutationResult.noConfusion h
  split at h <;> try exact MutationResult.noConfusion h
  rename_i h2
  split at h <;> try exact MutationResult.noConfusion h
  split at h <;> try exact MutationResult.noConfusion h
  split at h <;> try exact MutationResult.noConfusion h
  split at h <;> try exact MutationResult.noConfusion h
  split at h <;> try exact MutationResult.noConfusion h
  dsimp only at h
  split at h
  · injection h with h; subst h
    exact ⟨not_not.mp h2, rfl, rfl, rfl, Or.inl rfl⟩
  · split at h <;> try exact MutationResult.noConfusion h
    rename_i ended hfin
    injection h with h; subst h
    obtain ⟨f1, f2, f3, f4, f5⟩ :=
      finalizeRoundWithForcedSubmissions_ok _ _ _ _ hfin
    exact ⟨not_not.mp h2, f2, f3, f4, Or.inr f5⟩

theorem scoreRoundSubmission_ok (s : StoredRoomState) (tok : String)
    (rn : Int) (pid : String) (marks : PartialRoundMarks) (now : Time)
    (r : ScoreOk) (h : scoreRoundSubmission s tok rn pid marks now = .ok r) :
    r.nextState.participants = s.participants ∧
    r.nextState.game.status = s.game.status ∧
    r.nextState.game.turnOrder = s.game.turnOrder ∧
    r.nextState.game.currentTurnIndex = s.game.currentTurnIndex := by
  unfold scoreRoundSubmission at h
  split at h <;> try exact MutationResult.noConfusion h
  split at h <;> try exact MutationResult.noConfusion h
  split at h <;> try exact MutationResult.noConfusion h
  split at h <;> try exact MutationResult.noConfusion h
  split at h <;> try exact MutationResult.noConfusion h
  split at h <;> try exact MutationResult.noConfusion h
  split at h <;> try exact MutationResult.noConfusion h
  split at h <;> try exact MutationResult.noConfusion h
  dsimp only at h
  split at h <;> try exact MutationResult.noConfusion h
  injection h with h; subst h
  exact ⟨rfl, rfl, rfl, rfl⟩

theorem publishRoundScores_ok (s : StoredRoomState) (tok : String)
    (rn : Int) (now : Time) (r : PublishOk)
    (h : publishRoundScores s tok rn now = .ok r) :
    r.nextState.participants = s.participants ∧
    r.nextState.game.status = s.game.status ∧
    r.nextState.game.turnOrder = s.game.turnOrder ∧
    r.nextState.game.currentTurnIndex = s.game.currentTurnIndex := by
  unfold publishRoundScores at h
  split at h <;> try exact MutationResult.noConfusion h
  split at h <;> try exact MutationResult.noConfusion h
  split at h <;> try exact MutationResult.noConfusion h
  split at h <;> try exact MutationResult.noConfusion h
  split at h <;> try exact MutationResult.noConfusion h
  split at h <;> try exact MutationResult.noConfusion h
  dsimp only at h
  injection h with h; subst h
  exact ⟨rfl, rfl, rfl, rfl⟩

theorem discardRoundScores_ok (s : StoredRoomState) (tok : String)
    (rn : Int) (now : Time) (r : DiscardOk)
    (h : discardRoundScores s tok rn now = .ok r) :
    r.nextState.participants = s.participants ∧
    r.nextState.game.status = s.game.status ∧
    r.nextState.game.turnOrder = s.game.turnOrder ∧
    r.nextState.game.currentTurnIndex = s.game.currentTurnIndex := by
  unfold discardRoundScores at h
  split at h <;> try exact MutationResult.noConfusion h
  split at h <;> try exact MutationResult.noConfusion h
  split at h <;> try exact MutationResult.noConfusion h
  split at h <;> try exact MutationResult.noConfusion h
  split at h <;> try exact MutationResult.noConfusion h
  dsimp only at h
  injection h with h; subst h
  exact ⟨rfl, rfl, rfl, rfl⟩

theorem cancelGame_ok (s : StoredRoomState) (tok : String) (now : Time)
    (r : StateOnlyOk) (h : cancelGame s tok now = .ok r) :
    r.nextState.participants = s.participants ∧
    r.nextState.game.status = .CANCELLED ∧
    r.nextState.game.turnOrder = s.game.turnOrder := by
  unfold cancelGame at h
  split at h <;> try exact MutationResult.noConfusion h
  split at h <;> try exact MutationResult.noConfusion h
  split at h <;> try exact MutationResult.noConfusion h
  injection h with h; subst h
  exact ⟨rfl, rfl, rfl⟩

theorem endGame_ok (s : StoredRoomState) (tok : String) (now : Time)
    (r : StateOnlyOk) (h : endGame s tok now = .ok r) :
    r.nextState.participants = s.participants ∧
    r.nextState.game.status = .FINISHED ∧
    r.nextState.game.turnOrder = s.game.turnOrder := by
  unfold endGame at h
  split at h <;> try exact MutationResult.noConfusion h
  split at h <;> try exact MutationResult.noConfusion h
  split at h <;> try exact MutationResult.noConfusion h
  split at h <;> try exact MutationResult.noConfusion h
  injection h with h; subst h
  exact ⟨rfl, rfl, rfl⟩

/-- The reachability invariant: in every reachable state, a LOBBY game
has an empty turn order, an IN_PROGRESS game has a non-empty turn order
with a valid current index, and every participant's name is trimmed,
whitespace-collapsed and at least 2 characters, with non-host names at
most 24 characters. -/
theorem reachable_state_invariant (s : StoredRoomState) (h : Reachable s) :
    ((s.game.status = .LOBBY → s.game.turnOrder = []) ∧
      (s.game.status = .IN_PROGRESS →
        s.game.turnOrder ≠ [] ∧
        s.game.currentTurnIndex < s.game.turnOrder.length)) ∧
    (∀ p ∈ s.participants, isTrimmedCollapsed p.name ∧
      2 ≤ p.name.length ∧ (p.isHost = false → p.name.length ≤ 24)) := by
  induction h with
  | init raw mp code tok payload now heq =>
    obtain ⟨hh, hlen⟩ := handleCreateRoom_ok raw mp code tok payload heq
    refine ⟨⟨fun _ => rfl, fun hst => ?_⟩, ?_⟩
    · exact absurd hst (by simp [initializeRoomState])
    · intro p hp
      simp only [initializeRoomState, List.mem_singleton] at hp
      subst hp
      refine ⟨?_, ?_, ?_⟩
      · dsimp only
        rw [hh]
        exact isTrimmedCollapsed_normalizeName _
      · dsimp only
        rw [hh]
        exact normalizeName_trimString_length raw hlen
      · intro hfalse
        exact absurd hfalse (by simp)
  | join newId rawName now r hs heq ih =>
    rename_i s
    obtain ⟨hparts, hgame, hname, hhost, hmin, hmax⟩ :=
      createJoinRequest_ok s newId rawName now r heq
    refine ⟨by rw [hgame]; exact ih.1, ?_⟩
    intro p hp
    rw [hparts] at hp
    rcases List.mem_append.mp hp with hp | hp
    · exact ih.2 p hp
    · rcases List.mem_singleton.mp hp with rfl
      refine ⟨?_, ?_, fun _ => ?_⟩
      · rw [hname]; exact isTrimmedCollapsed_normalizeName _
      · rw [hname]; exact hmin
      · rw [hname]; exact hmax
  | resolveJoin rid approve now r hs heq ih =>
    rename_i s
    obtain ⟨hgame, hmap⟩ := resolveJoinRequest_ok s rid approve now r heq
    refine ⟨by rw [hgame]; exact ih.1, ?_⟩
    intro q hq
    obtain ⟨q0, hq0, hn, hh⟩ := hmap q hq
    obtain ⟨a, b, c⟩ := ih.2 q0 hq0
    refine ⟨?_, ?_, ?_⟩
    · rw [hn]; exact a
    · rw [hn]; exact b
    · intro hf
      rw [hn]
      exact c (by rw [← hh]; exact hf)
  | start tok cfg now r hs heq ih =>
    rename_i s
    obtain ⟨hparts, hstat, hto, hlen, hidx⟩ := startGame_ok s tok cfg now r heq
    refine ⟨⟨?_, ?_⟩, ?_⟩
    · intro hl
      rw [hstat] at hl
      exact absurd hl (by simp)
    · intro _
      constructor
      · rw [hto]
        intro hnil
        rw [hnil] at hlen
        simp at hlen
      · rw [hidx, hto]
        omega
    · intro p hp
      rw [hparts] at hp
      have hps : p ∈ s.participants := by
        unfold admittedParticipants sortParticipantsByJoinOrder at hp
        exact List.mem_of_mem_filter ((sortByLe_mem _ _ _).mp hp)
      exact ih.2 p hps
  | call pid n now r hs heq ih =>
    rename_i s
    obtain ⟨hparts, hstat, hto, hidx⟩ := callNumberForTurn_ok s pid n now r heq
    refine ⟨⟨?_, ?_⟩, ?_⟩
    · intro hl
      rw [hstat] at hl
      rw [hto]
      exact ih.1.1 hl
    · intro hi
      rw [hstat] at hi
      rw [hto, hidx]
      exact ih.1.2 hi
    · intro p hp
      rw [hparts] at hp
      exact ih.2 p hp
  | draft pid ans now r hs heq ih =>
    rename_i s
    obtain ⟨hparts, hstat, hto, hidx⟩ := updateRoundDraft_ok s pid ans now r heq
    refine ⟨⟨?_, ?_⟩, ?_⟩
    · intro hl
      rw [hstat] at hl
      rw [hto]
      exact ih.1.1 hl
    · intro hi
      rw [hstat] at hi
      rw [hto, hidx]
      exact ih.1.2 hi
    · intro p hp
      rw [hparts] at hp
      exact ih.2 p hp
  | submit pid ans now r hs heq ih =>
    rename_i s
    obtain ⟨hinp, hparts, hstat, hto, hidx⟩ :=
      submitRoundAnswers_ok s pid ans now r heq
    obtain ⟨hne, hlt⟩ := ih.1.2 hinp
    have hpos : 0 < s.game.turnOrder.length := List.length_pos.mpr hne
    refine ⟨⟨?_, ?_⟩, ?_⟩
    · intro hl
      rw [hstat, hinp] at hl
      exact absurd hl (by simp)
    · intro _
      constructor
      · rw [hto]; exact hne
      · rcases hidx with hidx | hidx
        · rw [hidx, hto]; exact hlt
        · rw [hidx, hto, if_neg (by omega)]
          exact Nat.mod_lt _ hpos
    · intro p hp
      rw [hparts] at hp
      exact ih.2 p hp
  | manualEnd pid now r hs heq ih =>
    rename_i s
    obtain ⟨hinp, hparts, hstat, hto, hidx⟩ :=
      endRoundManually_ok s pid now r heq
    obtain ⟨hne, hlt⟩ := ih.1.2 hinp
    have hpos : 0 < s.game.turnOrder.length := List.length_pos.mpr hne
    refine ⟨⟨?_, ?_⟩, ?_⟩
    · intro hl
      rw [hstat, hinp] at hl
      exact absurd hl (by simp)
    · intro _
      constructor
      · rw [hto]; exact hne
      · rw [hidx, hto, if_neg (by omega)]
        exact Nat.mod_lt _ hpos
    · intro p hp
      rw [hparts] at hp
      exact ih.2 p hp
  | timerEnd now r hs heq ih =>
    rename_i s
    obtain ⟨hinp, hparts, hstat, hto, hidx⟩ :=
      finalizeRoundWithForcedSubmissions_ok s .TIMER now r heq
    obtain ⟨hne, hlt⟩ := ih.1.2 hinp
    have hpos : 0 < s.game.turnOrder.length := List.length_pos.mpr hne
    refine ⟨⟨?_, ?_⟩, ?_⟩
    · intro hl
      rw [hstat, hinp] at hl
      exact absurd hl (by simp)
    · intro _
      constructor
      · rw [hto]; exact hne
      · rw [hidx, hto, if_neg (by omega)]
        exact Nat.mod_lt _ hpos
    · intro p hp
      rw [hparts] at hp
      exact ih.2 p hp
  | score tok rn pid marks now r hs heq ih =>
    rename_i s
    obtain ⟨hparts, hstat, hto, hidx⟩ :=
      scoreRoundSubmission_ok s tok rn pid marks now r heq
    refine ⟨⟨?_, ?_⟩, ?_⟩
    · intro hl
      rw [hstat] at hl
      rw [hto]
      exact ih.1.1 hl
    · intro hi
      rw [hstat] at hi
      rw [hto, hidx]
      exact ih.1.2 hi
    · intro p hp
      rw [hparts] at hp
      exact ih.2 p hp
  | publish tok rn now r hs heq ih =>
    rename_i s
    obtain ⟨hparts, hstat, hto, hidx⟩ := publishRoundScores_ok s tok rn now r heq
    refine ⟨⟨?_, ?_⟩, ?_⟩
    · intro hl
      rw [hstat] at hl
      rw [hto]
      exact ih.1.1 hl
    · intro hi
      rw [hstat] at hi
      rw [hto, hidx]
      exact ih.1.2 hi
    · intro p hp
      rw [hparts] at hp
      exact ih.2 p hp
  | discard tok rn now r hs heq ih =>
    rename_i s
    obtain ⟨hparts, hstat, hto, hidx⟩ := discardRoundScores_ok s tok rn now r heq
    refine ⟨⟨?_, ?_⟩, ?_⟩
    · intro hl
      rw [hstat] at hl
      rw [hto]
      exact ih.1.1 hl
    · intro hi
      rw [hstat] at hi
      rw [hto, hidx]
      exact ih.1.2 hi
    · intro p hp
      rw [hparts] at hp
      exact ih.2 p hp
  | cancel tok now r hs heq ih =>
    rename_i s
    obtain ⟨hparts, hstat, hto⟩ := cancelGame_ok s tok now r heq
    refine ⟨⟨?_, ?_⟩, ?_⟩
    · intro hl
      rw [hstat] at hl
      exact absurd hl (by simp)
    · intro hi
      rw [hstat] at hi
      exact absurd hi (by simp)
    · intro p hp
      rw [hparts] at hp
      exact ih.2 p hp
  | finish tok now r hs heq ih =>
    rename_i s
    obtain ⟨hparts, hstat, hto⟩ := endGame_ok s tok now r heq
    refine ⟨⟨?_, ?_⟩, ?_⟩
    · intro hl
      rw [hstat] at hl
      exact absurd hl (by simp)
    · intro hi
      rw [hstat] at hi
      exact absurd hi (by simp)
    · intro p hp
      rw [hparts] at hp
      exact ih.2 p hp

/-! ## Concrete reachable states -/

theorem reachable_cexS0 : Reachable cexS0 :=
  Reachable.init "Qudus" 4 "ROOM" "tok" cexPayload 0 (by decide)

theorem reachable_cexS1 : Reachable cexS1 :=
  Reachable.join "p1" "Ada" 1 ⟨cexS1, exampleAdaPending⟩ reachable_cexS0
    (by decide)

theorem reachable_cexS2 : Reachable cexS2 :=
  Reachable.resolveJoin "p1" true 2 ⟨cexS2, exampleAda⟩ reachable_cexS1
    (by decide)

theorem reachable_cexS3 : Reachable cexS3 :=
  Reachable.start "tok" none 3 ⟨cexS3⟩ reachable_cexS2 (by decide)

theorem reachable_cexS4 : Reachable cexS4 :=
  Reachable.cancel "tok" 4 ⟨cexS4⟩ reachable_cexS3 (by decide)

/-! ## C8: turn-order/status invariant (corrected) -/

/-- C8 counterexample: the claimed equivalence
`status = IN_PROGRESS ↔ turnOrder ≠ [] ∧ currentTurnIndex < |turnOrder|`
fails on reachable states: `cancelGame` keeps `turnOrder` and
`currentTurnIndex` unchanged, so a cancelled game still has a non-empty
turn order with a valid index. -/
theorem turn_order_iff_counterexample :
    ¬(∀ s : StoredRoomState, Reachable s →
      (s.game.status = .IN_PROGRESS ↔
        s.game.turnOrder ≠ [] ∧
        s.game.currentTurnIndex < s.game.turnOrder.length)) := by
  intro hcl
  have h := (hcl cexS4 reachable_cexS4).mpr (by decide)
  exact absurd h (by decide)

/-- C8 (amended): in every reachable state, IN_PROGRESS implies a
non-empty turn order with `currentTurnIndex` a valid index, and a LOBBY
game has an empty turn order; the converse of the IN_PROGRESS direction
does not hold because `cancelGame` and `endGame` keep the turn order. -/
theorem turn_order_invariant (s : StoredRoomState) (hs : Reachable s) :
    (s.game.status = .IN_PROGRESS →
      s.game.turnOrder ≠ [] ∧
      s.game.currentTurnIndex < s.game.turnOrder.length) ∧
    (s.game.status = .LOBBY → s.game.turnOrder = []) :=
  ⟨(reachable_state_invariant s hs).1.2, (reachable_state_invariant s hs).1.1⟩

/-- Witness for the amended turn-order invariant at a concrete reachable
in-progress room. -/
theorem turn_order_invariant_witness :
    (cexS3.game.status = .IN_PROGRESS →
      cexS3.game.turnOrder ≠ [] ∧
      cexS3.game.currentTurnIndex < cexS3.game.turnOrder.length) ∧
    (cexS3.game.status = .LOBBY → cexS3.game.turnOrder = []) :=
  turn_order_invariant cexS3 reachable_cexS3

/-! ## C9: participant-name invariant (corrected) -/

/-- C9 counterexample: the create-room handler checks only the minimum
length of the trimmed host name (`hostName.length < 2`), not the
maximum, so a room whose host name has 25 characters is reachable and
violates the claimed `length ≤ 24` bound. -/
theorem name_length_counterexample :
    ¬(∀ s : StoredRoomState, Reachable s → ∀ p ∈ s.participants,
      2 ≤ p.name.length ∧ p.name.length ≤ 24) := by
  intro hcl
  have hr : Reachable longNameState :=
    Reachable.init longHostName 4 "LONG" "tok" longNamePayload 0 (by decide)
  have h := hcl longNameState hr
    { id := "host", name := normalizeName longHostName, status := .ADMITTED
      isHost := true, createdAt := 0, updatedAt := 0 } (by decide)
  exact absurd h.2 (by decide)

/-- C9 (amended): every participant of a reachable state has a trimmed,
whitespace-collapsed name of length at least 2, and non-host names are
at most 24 characters (the host name has no maximum because the
create-room handler checks only the minimum); a join whose normalised
name has length below 2 or above 24 fails with status 400. -/
theorem name_length_invariant (s : StoredRoomState) (hs : Reachable s)
    (p : Participant) (hp : p ∈ s.participants)
    (s2 : StoredRoomState) (newId rawName : String) (now : Time)
    (hlobby : s2.game.status = .LOBBY)
    (hbad : (normalizeName rawName).length < 2 ∨
      24 < (normalizeName rawName).length) :
    (isTrimmedCollapsed p.name ∧ 2 ≤ p.name.length ∧
      (p.isHost = false → p.name.length ≤ 24)) ∧
    (createJoinRequest s2 newId rawName now).isErr = true ∧
    (createJoinRequest s2 newId rawName now).errStatus? = some 400 := by
  refine ⟨(reachable_state_invariant s hs).2 p hp, ?_, ?_⟩ <;>
    (unfold createJoinRequest
     dsimp only
     rw [if_neg (not_not_intro hlobby),
       if_pos (show (normalizeName rawName).length < MIN_NAME_LENGTH ∨
         MAX_NAME_LENGTH < (normalizeName rawName).length from hbad)]
     rfl)

/-- Witness for the amended name invariant: the host of a concrete
reachable room, and a join with a one-character name rejected with
status 400. -/
theorem name_length_invariant_witness :
    (isTrimmedCollapsed exampleHost.name ∧ 2 ≤ exampleHost.name.length ∧
      (exampleHost.isHost = false → exampleHost.name.length ≤ 24)) ∧
    (createJoinRequest cexS0 "p9" "A" 9).isErr = true ∧
    (createJoinRequest cexS0 "p9" "A" 9).errStatus? = some 400 :=
  name_length_invariant cexS0 reachable_cexS0 exampleHost (by decide)
    cexS0 "p9" "A" 9 rfl (by decide)

end ICallOn
